import Mathlib

/-!
Formal model of the Task Dispatch & Escrow Engine of the Rozdum bot
repository (src/tststs).  Python functions from `database.py`,
`utils/taxi_system.py`, `utils/task_timer.py`, `handlers/executor.py`,
`handlers/tasks.py`, `utils/financial_system.py` and
`admin_bot/dispute_handlers.py` are shallowly embedded as pure Lean
functions over an explicit database state `DB`.  Monetary amounts are
modelled as exact rationals, SQL rows as lists of structures, and
`datetime('now')` as a natural-number clock `DB.now` (seconds).
-/

set_option maxRecDepth 2000

namespace Rozdum

/-- Row of the `users` table (the columns the engine reads/writes).
`is_working` is `Option Bool` because the column is nullable and the
code distinguishes `COALESCE(is_working,1)` from `get('is_working', False)`.
`executor_tags` is the parsed JSON dict category → tag list; `none`
models SQL NULL / empty string (both excluded by `get_available_executors`). -/
structure User where
  user_id : Nat
  username : Option String
  balance : ℚ
  frozen_balance : ℚ
  earned_balance : ℚ
  rating : ℚ
  completed_tasks : Nat
  is_working : Option Bool
  is_blocked : Bool
  missed_tasks_count : Nat
  executor_tags : Option (List (String × List String))
deriving Repr, DecidableEq

/-- Row of the `tasks` table (columns the engine reads/writes). -/
structure Task where
  task_id : Nat
  customer_id : Nat
  executor_id : Option Nat
  category : String
  tags : List String
  price : ℚ
  is_vip : Bool
  status : String
deriving Repr, DecidableEq

/-- Row of the `task_offers` table.  `expires_at` is an absolute time in
seconds on the `DB.now` clock. -/
structure Offer where
  task_id : Nat
  executor_id : Nat
  status : String
  expires_at : Nat
deriving Repr, DecidableEq

/-- Row of the `disputes` table (columns the engine reads/writes). -/
structure Dispute where
  dispute_id : Nat
  task_id : Nat
  customer_id : Nat
  executor_id : Nat
  status : String
  resolution : Option String
  admin_id : Option Nat
deriving Repr, DecidableEq

/-- The persistent state: the four tables, the in-process
`active_timers` dict of `utils/task_timer.py` (task_id, executor_id,
absolute firing time), and the clock. -/
structure DB where
  users : List User
  tasks : List Task
  offers : List Offer
  disputes : List Dispute
  timers : List (Nat × Nat × Nat × Bool)
  now : Nat
deriving Repr, DecidableEq

/-- config.py: `PLATFORM_COMMISSION_RATE = 0.10`. -/
def PLATFORM_COMMISSION_RATE : ℚ := 0.10

/-- config.py: `VIP_TASK_PRICE_LOW = 10.0`. -/
def VIP_TASK_PRICE_LOW : ℚ := 10

/-- config.py: `VIP_TASK_PRICE_HIGH = 15.0`. -/
def VIP_TASK_PRICE_HIGH : ℚ := 15

/-- config.py: `VIP_TASK_THRESHOLD = 100.0`. -/
def VIP_TASK_THRESHOLD : ℚ := 100

/-- config.py: `VIP_EXECUTOR_MIN_RATING = 4.0`. -/
def VIP_EXECUTOR_MIN_RATING : ℚ := 4

/-- utils/tag_translator.py: the `ENGLISH_TO_UKRAINIAN` dict. -/
def ENGLISH_TO_UKRAINIAN : List (String × String) :=
  [("design", "дизайн"), ("powerpoint", "powerpoint"), ("keynote", "keynote"),
   ("business", "бізнес-презентації"), ("infographics", "інфографіка"),
   ("slides", "слайди"), ("presentation", "оформлення"),
   ("python", "python"), ("javascript", "javascript"), ("react", "react"),
   ("django", "django"), ("fastapi", "fastapi"), ("postgresql", "postgresql"),
   ("database", "бази-даних"), ("web-development", "веб-розробка"),
   ("automation", "автоматизація"), ("api", "api"), ("frontend", "фронтенд"),
   ("backend", "бекенд"),
   ("academic-texts", "академічні-тексти"), ("creative-texts", "креативні-тексти"),
   ("technical-texts", "технічні-тексти"), ("articles", "статті"),
   ("essays", "есе"), ("copywriting", "копірайтинг"),
   ("translations", "переклади"), ("editing", "редагування"),
   ("business-strategy", "бізнес-стратегія"),
   ("technical-consulting", "технічні-консультації"), ("marketing", "маркетинг"),
   ("finance", "фінанси"), ("project-management", "управління-проектами"),
   ("analytics", "аналітика"),
   ("graphic-design", "графічний-дизайн"), ("web-design", "веб-дизайн"),
   ("logos", "логотипи"), ("branding", "брендинг"), ("ui-ux", "ui-ux"),
   ("illustrations", "ілюстрації"), ("banners", "баннери"),
   ("video-editing", "монтаж-відео"), ("animation", "анімація"),
   ("voice-over", "озвучка"), ("video-ads", "відеореклама"),
   ("youtube", "youtube"), ("motion-graphics", "motion-graphics")]

/-- utils/tag_translator.py: `UKRAINIAN_TO_ENGLISH = {v: k for k, v in ...}`. -/
def UKRAINIAN_TO_ENGLISH : List (String × String) :=
  ENGLISH_TO_UKRAINIAN.map (fun p => (p.2, p.1))

/-- Dict lookup `d.get(key)` on an association list. -/
def dictGet (d : List (String × String)) (k : String) : Option String :=
  (d.find? (fun p => p.1 == k)).map (·.2)

/-- utils/tag_translator.py `normalize_tags_for_matching`, one side: the
tag set together with every dictionary translation of its lowercased
members.  Python sets are modelled as deduplicated lists. -/
def normalizeOneSide (tags : List String) : List String :=
  (tags ++
    (tags.filterMap (fun t => dictGet ENGLISH_TO_UKRAINIAN t.toLower)) ++
    (tags.filterMap (fun t => dictGet UKRAINIAN_TO_ENGLISH t.toLower))).dedup

/-- utils/tag_translator.py:129 `find_matching_tags`: the intersection of
the two normalized tag sets (as a deduplicated list). -/
def find_matching_tags (task_tags executor_tags : List String) : List String :=
  (normalizeOneSide task_tags).filter (fun t => (normalizeOneSide executor_tags).contains t)

/-- database.py `get_user`: `SELECT * FROM users WHERE user_id = ?`. -/
def get_user (uid : Nat) (db : DB) : Option User :=
  db.users.find? (fun u => u.user_id == uid)

/-- database.py:617 `get_task`: `SELECT * FROM tasks WHERE task_id = ?`. -/
def get_task (tid : Nat) (db : DB) : Option Task :=
  db.tasks.find? (fun t => t.task_id == tid)

/-- Apply `f` to the user row with the given id (SQL `UPDATE users ...
WHERE user_id = ?`); the Bool is `rowcount > 0`. -/
def updateUserRow (uid : Nat) (f : User → User) (db : DB) : DB × Bool :=
  ({ db with users := db.users.map (fun u => if u.user_id == uid then f u else u) },
   db.users.any (fun u => u.user_id == uid))

/-- database.py:573 `update_user_balance`: `UPDATE users SET balance =
balance + ?, frozen_balance = frozen_balance + ? WHERE user_id = ?`. -/
def update_user_balance (uid : Nat) (balance_change : ℚ) (frozen_change : ℚ)
    (db : DB) : DB × Bool :=
  updateUserRow uid
    (fun u => { u with balance := u.balance + balance_change,
                       frozen_balance := u.frozen_balance + frozen_change }) db

/-- database.py:637 `update_task` restricted to the keyword arguments the
engine actually passes: an optional new `status` and an optional new
`executor_id` value (`some none` = SQL NULL).  The Bool is `rowcount > 0`. -/
def update_task_fields (tid : Nat) (status : Option String)
    (executor : Option (Option Nat)) (db : DB) : DB × Bool :=
  ({ db with tasks := db.tasks.map (fun t =>
      if t.task_id == tid then
        { t with status := status.getD t.status,
                 executor_id := executor.getD t.executor_id }
      else t) },
   db.tasks.any (fun t => t.task_id == tid))

/-- Status rewrite `UPDATE task_offers SET status = ? WHERE <p>`. -/
def setOfferStatus (p : Offer → Bool) (st : String) (offers : List Offer) :
    List Offer :=
  offers.map (fun o => if p o then { o with status := st } else o)

/-- Predicate for a pending offer of a given (task, executor) pair. -/
def isPendingPair (tid eid : Nat) (o : Offer) : Bool :=
  o.task_id == tid && o.executor_id == eid && o.status == "pending"

/-- database.py:1365 `create_task_offer`: refuses if a `pending` offer for
the same (task, executor) pair already exists, otherwise inserts a new
`pending` row with `expires_at = now + expires_in_minutes` (30 by default). -/
def create_task_offer (tid eid : Nat) (expires_in_minutes : Nat) (db : DB) :
    DB × Bool :=
  if db.offers.any (isPendingPair tid eid) then (db, false)
  else
    ({ db with offers := db.offers ++
        [⟨tid, eid, "pending", db.now + expires_in_minutes * 60⟩] }, true)

/-- database.py:1396 `get_task_offer`: the `pending` offer of the pair with
`expires_at > datetime('now')`. -/
def get_task_offer (tid eid : Nat) (db : DB) : Option Offer :=
  db.offers.find? (fun o => isPendingPair tid eid o && db.now < o.expires_at)

/-- database.py:1416 `accept_task_offer`: flip the pair's `pending` offers
to `accepted` (rolled back and `False` when none matched), assign the
executor and set `in_progress` on the task — but only `WHERE status =
'searching'` — and cancel the other pending offers of the task. -/
def accept_task_offer (tid eid : Nat) (db : DB) : DB × Bool :=
  if db.offers.any (isPendingPair tid eid) then
    let db1 := { db with offers := setOfferStatus (isPendingPair tid eid) "accepted" db.offers }
    let db2 := { db1 with tasks := db1.tasks.map (fun (t : Task) =>
        if t.task_id == tid && t.status == "searching" then
          { t with executor_id := some eid, status := "in_progress" }
        else t) }
    let cancelled := setOfferStatus
        (fun o => o.task_id == tid && !(o.executor_id == eid) && o.status == "pending")
        "cancelled" db2.offers
    ({ db2 with offers := cancelled }, true)
  else (db, false)

/-- database.py:1456 `reject_task_offer`: flip the pair's `pending` offers
to `rejected`; Bool is `rowcount > 0`. -/
def reject_task_offer (tid eid : Nat) (db : DB) : DB × Bool :=
  ({ db with offers := setOfferStatus (isPendingPair tid eid) "rejected" db.offers },
   db.offers.any (isPendingPair tid eid))

/-- database.py:1496 `update_task_offer_status`: unconditional status
rewrite of every offer of the (task, executor) pair. -/
def update_task_offer_status (tid eid : Nat) (st : String) (db : DB) : DB × Bool :=
  let offers1 := setOfferStatus
      (fun o => o.task_id == tid && o.executor_id == eid) st db.offers
  ({ db with offers := offers1 },
   db.offers.any (fun o => o.task_id == tid && o.executor_id == eid))

/-- database.py:1476 `get_declined_executors_for_task`: `SELECT DISTINCT
executor_id FROM task_offers WHERE task_id = ? AND status = 'rejected'`. -/
def get_declined_executors_for_task (tid : Nat) (db : DB) : List Nat :=
  ((db.offers.filter (fun o => o.task_id == tid && o.status == "rejected")).map
    (·.executor_id)).dedup

/-- database.py:1516 `increment_missed_tasks`: increment the counter and
return the new count (0 when the user row is missing). -/
def increment_missed_tasks (uid : Nat) (db : DB) : DB × Nat :=
  let db1 := (updateUserRow uid
    (fun u => { u with missed_tasks_count := u.missed_tasks_count + 1 }) db).1
  (db1, match get_user uid db1 with
        | some u => u.missed_tasks_count
        | none => 0)

/-- database.py:1545 `reset_missed_tasks`: set the counter to 0. -/
def reset_missed_tasks (uid : Nat) (db : DB) : DB × Bool :=
  updateUserRow uid (fun u => { u with missed_tasks_count := 0 }) db

/-- database.py:1566 `set_work_status`: set `is_working`. -/
def set_work_status (uid : Nat) (b : Bool) (db : DB) : DB × Bool :=
  updateUserRow uid (fun u => { u with is_working := some b }) db

/-- database.py:1311 `cleanup_expired_offers`: delete `pending` offers with
`expires_at < now`; for each task that had one and has no `pending` offer
left, reset it to `searching` (only `WHERE status = 'offered'`). -/
def cleanup_expired_offers (db : DB) : DB :=
  let expiredTids := ((db.offers.filter
      (fun o => o.status == "pending" && o.expires_at < db.now)).map (·.task_id)).dedup
  let offers1 := db.offers.filter
      (fun o => !(o.status == "pending" && o.expires_at < db.now))
  let tasks1 := db.tasks.map (fun t =>
      if expiredTids.contains t.task_id &&
         !(offers1.any (fun o => o.task_id == t.task_id && o.status == "pending")) &&
         t.status == "offered" then
        { t with status := "searching", executor_id := none }
      else t)
  { db with offers := offers1, tasks := tasks1 }

/-- Stable insertion into a sorted list: `x` is placed before the first
element `y` with `le x y`. -/
def insertSorted (le : α → α → Bool) (x : α) : List α → List α
  | [] => [x]
  | y :: ys => if le x y then x :: y :: ys else y :: insertSorted le x ys

/-- Stable sort (Python `list.sort` is stable; any stable sort computes the
same list for a total preorder `le` with ties broken by original order,
which is what the code relies on). -/
def stableSort (le : α → α → Bool) : List α → List α
  | [] => []
  | x :: xs => insertSorted le x (stableSort le xs)

/-- Executor row returned by `get_available_executors`, carrying the
computed `match_percentage` the caller reads back. -/
structure Candidate where
  user : User
  match_percentage : ℚ
deriving Repr, DecidableEq

/-- Sort key of database.py:767: `(match_percentage, rating)` descending
(`reverse=True` on the tuple key). -/
def candidateLe (a b : Candidate) : Bool :=
  decide (b.match_percentage < a.match_percentage ∨
    (b.match_percentage = a.match_percentage ∧ b.user.rating ≤ a.user.rating))

/-- database.py:697 `get_available_executors`: the SQL `WHERE` filter
(rating floor, tags present, `COALESCE(is_working,1)=1`, not blocked,
`user_id >= 100000`, non-empty username, and no currently `pending`
unexpired offer for ANY task), then per row: the executor must list the
task's category and match at least 70 percent of the task's tags
(language-aware), recording `match_percentage = |matching| / len(tags)`;
finally sorted by `(match_percentage, rating)` descending. -/
def get_available_executors (category : String) (tags : List String)
    (min_rating : ℚ) (db : DB) : List Candidate :=
  let pendingExecs := (db.offers.filter
      (fun o => o.status == "pending" && db.now < o.expires_at)).map (·.executor_id)
  let rows := db.users.filter (fun u =>
    decide (min_rating ≤ u.rating) && u.executor_tags.isSome &&
    u.is_working.getD true && !u.is_blocked &&
    decide (100000 ≤ u.user_id) &&
    (match u.username with | some s => !(s == "") | none => false) &&
    !(pendingExecs.contains u.user_id))
  let cands := rows.filterMap (fun (u : User) =>
    match u.executor_tags with
    | none => none
    | some m =>
      match m.find? (fun p => p.1 == category) with
      | none => none
      | some p =>
        let matching := find_matching_tags tags p.2
        let required_tags_count := tags.length
        let pct : ℚ :=
          if required_tags_count == 0 then 0
          else (matching.length : ℚ) / (required_tags_count : ℚ)
        if (0.7 : ℚ) ≤ pct then some ⟨u, pct⟩ else none)
  stableSort candidateLe cands

/-- utils/taxi_system.py:19 `calculate_executor_priority`:
`0.4 * tag_score + 0.5 * rating_score + experience_bonus`, floored at 0.1.
Python sets are modelled as deduplicated lists. -/
def calculate_executor_priority (executor : User) (task_tags : List String)
    (task_category : String) : ℚ :=
  let category_tags : List String :=
    (match executor.executor_tags with
     | some m => ((m.find? (fun p => p.1 == task_category)).map (fun p => p.2)).getD []
     | none => [])
  let tag_score : ℚ :=
    if task_tags.isEmpty || category_tags.isEmpty then 0.1
    else
      let required := task_tags.dedup
      let etags := category_tags.dedup
      if required.all (fun t => etags.contains t) then
        1 + min (((etags.filter (fun t => !(required.contains t))).length : ℚ) * 0.05) 0.2
      else ((required.filter (fun t => etags.contains t)).length : ℚ) / (required.length : ℚ)
  let rating_score : ℚ := (executor.rating - 1) / 4
  let experience_bonus : ℚ := min ((executor.completed_tasks : ℚ) * 0.05) 0.3
  max (tag_score * 0.4 + rating_score * 0.5 + experience_bonus) 0.1

/-- utils/taxi_system.py:97-118: the candidate pool of one
`find_and_notify_executor` invocation: `get_available_executors` (VIP
rating floor), minus the `exclude_executor` argument, minus the task's
customer, minus executors with a `rejected` offer for this task, then the
"real users" filter (`user_id > 100000` and truthy `is_working`). -/
def findPool (task : Task) (exclude : Option Nat) (db : DB) : List Candidate :=
  let min_rating := if task.is_vip then VIP_EXECUTOR_MIN_RATING else 0
  let base := get_available_executors task.category task.tags min_rating db
  let a1 : List Candidate := match exclude with
    | some e => base.filter (fun c => !(c.user.user_id == e))
    | none => base
  let a2 := a1.filter (fun (c : Candidate) => !(c.user.user_id == task.customer_id))
  let declined := get_declined_executors_for_task task.task_id db
  let a3 := a2.filter (fun (c : Candidate) => !(declined.contains c.user.user_id))
  a3.filter (fun (c : Candidate) =>
    decide (100000 < c.user.user_id) && c.user.is_working.getD true)

/-- utils/task_timer.py:23 `start_acceptance_timer`: cancel any timer the
`active_timers` dict still tracks for the task (the Bool field: the
timeout handler's final `del active_timers[task_id]` removes the dict
entry WITHOUT cancelling the armed coroutine, leaving an untracked timer
that still fires but can no longer be cancelled) and arm a fresh tracked
10-minute one. -/
def startTimer (tid eid : Nat) (db : DB) : DB :=
  { db with timers :=
      (tid, eid, db.now + 600, true) :: db.timers.filter (fun x => !(x.1 == tid && x.2.2.2)) }

/-- utils/task_timer.py:38 `cancel_timer`: `.cancel()` and delete the
tracked timer of the task; untracked timers are unreachable from the dict
and keep running. -/
def cancelTimer (tid : Nat) (db : DB) : DB :=
  { db with timers := db.timers.filter (fun x => !(x.1 == tid && x.2.2.2)) }

/-- utils/taxi_system.py:147-157 plus `send_task_offer` (165-241): create
the `pending` offer row, then attempt the send.  The call site (line 150)
passes `selected_executor` — an executor dict — as `send_task_offer`'s
`task` parameter, so after the executor re-fetch and `is_working` check the
message build hits `task['price']` (line 182) and raises `KeyError` BEFORE
`bot.send_message`, before `update_task(status='offered', ...)` (line 233)
and before `start_acceptance_timer` (the `except` block itself re-raises on
`task['task_id']` and `find_and_notify_executor`'s outer handler returns
`False`).  The success branch is dead code: every dispatch leaves the
already-created offer row `pending`, the task untouched (still
`searching`) and no timer armed, and reports failure. -/
def dispatchOffer (tid cuid : Nat) (db : DB) : DB × Bool :=
  let r := create_task_offer tid cuid 30 db
  (r.1, false)

/-- utils/taxi_system.py:125: the sort key `executor['priority']`,
descending (`reverse=True`), stable. -/
def offerSortLe (task : Task) (a b : Candidate) : Bool :=
  decide (calculate_executor_priority b.user task.tags task.category ≤
          calculate_executor_priority a.user task.tags task.category)

/-- utils/taxi_system.py:68 `find_and_notify_executor`: for a task still
`searching`, compute the pool, sort by priority (descending, stable), give
up if the best-priority candidate's match percentage is a near miss in
`[0.9, 1)` (tag-gap suggestion path), otherwise pick `random.choice` from
the WHOLE pool (modelled by the oracle index `pick`, taken mod the pool
size) and run `dispatchOffer` (which always fails after creating the
offer row, see there). -/
def find_and_notify_executor (tid : Nat) (exclude : Option Nat) (pick : Nat)
    (db : DB) : DB × Bool :=
  match get_task tid db with
  | none => (db, false)
  | some task =>
    if task.status == "searching" then
      match stableSort (offerSortLe task) (findPool task exclude db) with
      | [] => (db, false)
      | best :: rest =>
        if (0.9 : ℚ) ≤ best.match_percentage && best.match_percentage < 1 then
          (db, false)
        else
          dispatchOffer tid
            (((best :: rest).getD (pick % (best :: rest).length) best).user.user_id)
            db
    else (db, false)

/-- handlers/executor.py:21 `handle_task_offer`: common guards (the task
exists, its status is still `searching` or `offered`, and the responding
executor holds a pending unexpired offer), then the accept branch
(`accept_task_offer`, cancel the timer, `update_task_offer_status
'accepted'`, `reset_missed_tasks`) or the decline branch (cancel the
timer, `reject_task_offer`; on success increment the missed counter and
reset the task to `searching`; in every case re-run
`find_and_notify_executor` excluding this executor). -/
def respondToOffer (tid eid : Nat) (accept : Bool) (pick : Nat)
    (db : DB) : DB × Bool :=
  match get_task tid db with
  | none => (db, false)
  | some task =>
    if !(task.status == "searching" || task.status == "offered") then (db, false)
    else
      match get_task_offer tid eid db with
      | none => (db, false)
      | some _ =>
        if accept then
          let r := accept_task_offer tid eid db
          if r.2 then
            let db1 := cancelTimer tid r.1
            let db2 := (update_task_offer_status tid eid "accepted" db1).1
            ((reset_missed_tasks eid db2).1, true)
          else (r.1, false)
        else
          let db1 := cancelTimer tid db
          let r := reject_task_offer tid eid db1
          let db2 :=
            if r.2 then
              let dbm := (increment_missed_tasks eid r.1).1
              (update_task_fields tid (some "searching") (some none) dbm).1
            else r.1
          ((find_and_notify_executor tid (some eid) pick db2).1, r.2)

/-- utils/task_timer.py:52-86, the body of `_acceptance_timeout_handler`
after its guard (task still `offered` to this executor): mark the pair's
offers `expired`, increment the missed counter, flip `is_working` off when
the new count reached 3, and reset the task to `searching`. -/
def acceptance_timeout_core (tid eid : Nat) (db : DB) : DB :=
  let db1 := (update_task_offer_status tid eid "expired" db).1
  let r := increment_missed_tasks eid db1
  let db2 := if 3 ≤ r.2 then (set_work_status eid false r.1).1 else r.1
  (update_task_fields tid (some "searching") (some none) db2).1

/-- utils/task_timer.py:46 `_acceptance_timeout_handler`: the fired timer
entry is consumed; if the task is no longer `offered` to this executor the
handler is a no-op, otherwise it runs `acceptance_timeout_core`, re-runs
`find_and_notify_executor` excluding this executor, and finally executes
`del active_timers[task_id]`, which untracks (without cancelling) any
timer still tracked for the task.  NOTE: in the source this handler is
dead code — `start_acceptance_timer` is only reached through the dead
success branch of the send (see `dispatchOffer`), so no timer is ever
armed and the handler never runs; it is embedded faithfully all the
same. -/
def fireTimer (entry : Nat × Nat × Nat × Bool) (pick : Nat)
    (db : DB) : DB :=
  let tid := entry.1
  let eid := entry.2.1
  let db0 := { db with timers := db.timers.erase entry }
  match get_task tid db0 with
  | none => db0
  | some task =>
    if task.status == "offered" && task.executor_id == some eid then
      let db1 := acceptance_timeout_core tid eid db0
      let db2 := (find_and_notify_executor tid (some eid) pick db1).1
      { db2 with timers := db2.timers.map (fun x =>
          if x.1 == tid then (x.1, x.2.1, x.2.2.1, false) else x) }
    else db0

/-- handlers/executor.py:150 `complete_task`: the assigned executor marks
an `in_progress` task `pending_approval`. -/
def complete_task (tid eid : Nat) (db : DB) : DB × Bool :=
  match get_task tid db with
  | none => (db, false)
  | some task =>
    if !(task.executor_id == some eid) then (db, false)
    else if !(task.status == "in_progress") then (db, false)
    else ((update_task_fields tid (some "pending_approval") none db).1, true)

/-- handlers/tasks.py:123 `get_vip_cost`. -/
def get_vip_cost (price : ℚ) : ℚ :=
  if price ≤ VIP_TASK_THRESHOLD then VIP_TASK_PRICE_LOW else VIP_TASK_PRICE_HIGH

/-- handlers/tasks.py:116 `calculate_total_cost`. -/
def calculate_total_cost (price : ℚ) (is_vip : Bool) : ℚ :=
  price + (if is_vip then get_vip_cost price else 0)

/-- handlers/executor.py:204 `approve_task_completion`: for the customer's
own `pending_approval` task, credit `price * (1 - PLATFORM_COMMISSION_RATE)`
to the executor's `balance` (note: NOT to `earned_balance`), release the
customer's frozen amount (price plus the VIP surcharge when applicable),
and mark the task `completed` when the executor credit succeeded.
`executor_id.getD 0` models SQL NULL matching no user row (no state in
this development contains a user with id 0). -/
def approve_task_completion (tid uid : Nat) (db : DB) : DB × Bool :=
  match get_task tid db with
  | none => (db, false)
  | some task =>
    if !(task.customer_id == uid) then (db, false)
    else if !(task.status == "pending_approval") then (db, false)
    else
      let executor_payment := task.price * (1 - PLATFORM_COMMISSION_RATE)
      let r := update_user_balance (task.executor_id.getD 0) executor_payment 0 db
      let frozen_amount := task.price + (if task.is_vip then get_vip_cost task.price else 0)
      let db2 := (update_user_balance task.customer_id 0 (-frozen_amount) r.1).1
      if r.2 then ((update_task_fields tid (some "completed") none db2).1, true)
      else (db2, false)

/-- handlers/executor.py:437 `cancel_task`: only the owner of a task still
in `searching` may cancel; the task is set to `canceled` (the code's
spelling) and price plus VIP surcharge is refunded from frozen to
available.  No offer row and no timer is touched. -/
def cancel_task (tid uid : Nat) (db : DB) : DB × Bool :=
  match get_task tid db with
  | none => (db, false)
  | some task =>
    if !(task.customer_id == uid) then (db, false)
    else if !(task.status == "searching") then (db, false)
    else
      let db1 := (update_task_fields tid (some "canceled") none db).1
      let refund := task.price + (if task.is_vip then get_vip_cost task.price else 0)
      ((update_user_balance uid refund (-refund) db1).1, true)

/-- database.py:1118 `create_dispute` (the fresh autoincrement id is the
explicit `did`). -/
def create_dispute (did tid cid eid : Nat) (db : DB) : DB :=
  { db with disputes := db.disputes ++ [⟨did, tid, cid, eid, "open", none, none⟩] }

/-- handlers/executor.py:268 `dispute_task`: the customer of a `completed`
or `in_progress` task opens a dispute; the task is set to status
`dispute`. -/
def dispute_task (tid uid did : Nat) (db : DB) : DB × Bool :=
  match get_task tid db with
  | none => (db, false)
  | some task =>
    if !(task.customer_id == uid) then (db, false)
    else if !(task.status == "completed" || task.status == "in_progress") then (db, false)
    else
      let db1 := create_dispute did tid task.customer_id (task.executor_id.getD 0) db
      ((update_task_fields tid (some "dispute") none db1).1, true)

/-- database.py:1139 `get_dispute`: the dispute row inner-joined with its
task (a dispute whose task is missing is reported as not found). -/
def get_dispute (did : Nat) (db : DB) : Option Dispute :=
  match db.disputes.find? (fun d => d.dispute_id == did) with
  | none => none
  | some d => if (get_task d.task_id db).isSome then some d else none

/-- database.py:1187 `resolve_dispute`: `UPDATE disputes SET status =
'resolved', resolution = ?, admin_id = ? WHERE dispute_id = ?` — with NO
guard on the current status; the Bool is `rowcount > 0`, true whenever the
dispute row exists, resolved or not. -/
def resolve_dispute (did : Nat) (resolution : String) (admin : Nat) (db : DB) :
    DB × Bool :=
  ({ db with disputes := db.disputes.map (fun d =>
      if d.dispute_id == did then
        { d with status := "resolved", resolution := some resolution,
                 admin_id := some admin }
      else d) },
   db.disputes.any (fun d => d.dispute_id == did))

/-- admin_bot/dispute_handlers.py:114 `resolve_dispute_handler`: look up
the dispute and its task, run `resolve_dispute` (which never checks the
previous status), then move the money: `customer` → refund the full price
(frozen → available) and cancel the task; `executor` → release the
customer's frozen price and credit `price * 0.9` to the executor's
`balance` AND `earned_balance`, completing the task. -/
def resolve_dispute_handler (did : Nat) (resolution : String) (admin : Nat)
    (db : DB) : DB × Bool :=
  match get_dispute did db with
  | none => (db, false)
  | some dispute =>
    match get_task dispute.task_id db with
    | none => (db, false)
    | some task =>
      let r := resolve_dispute did resolution admin db
      if !r.2 then (r.1, false)
      else if resolution == "customer" then
        let db2 := (updateUserRow dispute.customer_id (fun u =>
          { u with frozen_balance := u.frozen_balance - task.price,
                   balance := u.balance + task.price }) r.1).1
        ((update_task_fields dispute.task_id (some "cancelled") none db2).1, true)
      else if resolution == "executor" then
        let executor_payment := task.price * 0.9
        let db2 := (updateUserRow dispute.customer_id (fun u =>
          { u with frozen_balance := u.frozen_balance - task.price }) r.1).1
        let db3 := (updateUserRow dispute.executor_id (fun u =>
          { u with balance := u.balance + executor_payment,
                   earned_balance := u.earned_balance + executor_payment }) db2).1
        ((update_task_fields dispute.task_id (some "completed") none db3).1, true)
      else (r.1, false)

/-- utils/financial_system.py:196 `process_withdrawal`: the guard checks
`earned_balance < amount` but the deduction hits `balance` (and then
`earned_balance`); `withdrawOk` models the payment-gateway outcome, on
failure both are refunded. -/
def process_withdrawal (uid : Nat) (amount : ℚ) (withdrawOk : Bool) (db : DB) :
    DB × Bool :=
  match get_user uid db with
  | none => (db, false)
  | some user =>
    if user.earned_balance < amount then (db, false)
    else
      let r := update_user_balance uid (-amount) 0 db
      if !r.2 then (r.1, false)
      else
        let db2 := (updateUserRow uid (fun u =>
          { u with earned_balance := u.earned_balance - amount }) r.1).1
        if withdrawOk then (db2, true)
        else
          let db3 := (update_user_balance uid amount 0 db2).1
          ((updateUserRow uid (fun u =>
            { u with earned_balance := u.earned_balance + amount }) db3).1, false)

/-- database.py:596 `create_task` (fresh autoincrement id passed
explicitly; schema default status is `searching`). -/
def create_task (tid cid : Nat) (category : String) (tags : List String)
    (price : ℚ) (is_vip : Bool) (db : DB) : DB :=
  { db with tasks := db.tasks ++ [⟨tid, cid, none, category, tags, price, is_vip, "searching"⟩] }

/-- handlers/tasks.py:656 `create_task_final`: check the customer's
balance against `calculate_total_cost`, freeze the funds
(`update_user_balance(uid, -total, total)`), insert the task and start the
executor search. -/
def create_task_final (uid : Nat) (category : String) (tags : List String)
    (price : ℚ) (is_vip : Bool) (tid : Nat) (pick : Nat)
    (db : DB) : DB × Bool :=
  match get_user uid db with
  | none => (db, false)
  | some user =>
    let total_cost := calculate_total_cost price is_vip
    if user.balance < total_cost then (db, false)
    else
      let r := update_user_balance uid (-total_cost) total_cost db
      if !r.2 then (r.1, false)
      else
        let db2 := create_task tid uid category tags price is_vip r.1
        find_and_notify_executor tid none pick db2

/-- One externally triggered operation of the engine.  The oracle
arguments model the environment: `pick` the `random.choice` draw, `wOk`
success of the payment gateway, `d` the passage of time.  `dispatch` is
the scheduler / manual re-search invocation
(`task_scheduler._process_waiting_tasks`,
`handlers/tasks.py manual_search_executors`, `add_task_to_scheduler`),
which never passes an exclusion; exclusions are passed only by the decline
and timeout flows internally.  Fresh autoincrement ids are enforced by the
freshness side conditions. -/
inductive Step : DB → DB → Prop where
  | createTask (uid : Nat) (category : String) (tags : List String) (price : ℚ)
      (vip : Bool) (tid pick : Nat) (s : DB)
      (hfresh : s.tasks.all (fun t => !(t.task_id == tid)) = true) :
      Step s (create_task_final uid category tags price vip tid pick s).1
  | dispatch (tid pick : Nat) (s : DB) :
      Step s (find_and_notify_executor tid none pick s).1
  | respond (tid eid : Nat) (accept : Bool) (pick : Nat) (s : DB) :
      Step s (respondToOffer tid eid accept pick s).1
  | timeout (entry : Nat × Nat × Nat × Bool) (pick : Nat) (s : DB)
      (hmem : entry ∈ s.timers) (hdue : entry.2.2.1 ≤ s.now) :
      Step s (fireTimer entry pick s)
  | cleanupStep (s : DB) : Step s (cleanup_expired_offers s)
  | tick (d : Nat) (s : DB) : Step s { s with now := s.now + d }
  | cancel (tid uid : Nat) (s : DB) : Step s (cancel_task tid uid s).1
  | complete (tid eid : Nat) (s : DB) : Step s (complete_task tid eid s).1
  | approve (tid uid : Nat) (s : DB) : Step s (approve_task_completion tid uid s).1
  | openDispute (tid uid did : Nat) (s : DB)
      (hfresh : s.disputes.all (fun d => !(d.dispute_id == did)) = true) :
      Step s (dispute_task tid uid did s).1
  | resolve (did : Nat) (resolution : String) (admin : Nat) (s : DB) :
      Step s (resolve_dispute_handler did resolution admin s).1
  | withdraw (uid : Nat) (amount : ℚ) (wOk : Bool) (s : DB) :
      Step s (process_withdrawal uid amount wOk s).1

/-- Multi-step execution. -/
def Steps : DB → DB → Prop := Relation.ReflTransGen Step

/-- An initial state of the offer subsystem: no offers and no timers yet
(user accounts and tasks are pre-existing data). -/
def InitDB (s : DB) : Prop := s.offers = [] ∧ s.timers = []

/-- A state of the running system: reachable from some initial state. -/
def ReachableState (s : DB) : Prop := ∃ s0, InitDB s0 ∧ Steps s0 s

/-- There is an offer row with the given status for the (task, executor)
pair. -/
def hasStatusPair (st : String) (tid eid : Nat) (l : List Offer) : Prop :=
  ∃ o ∈ l, o.task_id = tid ∧ o.executor_id = eid ∧ o.status = st

/-- There is a `pending` offer row for the (task, executor) pair. -/
def hasPendingPair (tid eid : Nat) (l : List Offer) : Prop :=
  hasStatusPair "pending" tid eid l

/-- There is a `rejected` offer row for the (task, executor) pair. -/
def hasRej (tid eid : Nat) (l : List Offer) : Prop :=
  hasStatusPair "rejected" tid eid l

/-- At most one `pending` offer row per (task, executor) pair. -/
def UNIQ (s : DB) : Prop :=
  ∀ tid eid, s.offers.countP (isPendingPair tid eid) ≤ 1

/-- No pair has both a `pending` and a `rejected` offer row. -/
def NoPR (s : DB) : Prop :=
  ∀ tid eid, hasPendingPair tid eid s.offers → ¬ hasRej tid eid s.offers

/-- A task currently `offered` to an executor has no `rejected` offer row
for that executor. -/
def INVOFF (s : DB) : Prop :=
  ∀ t ∈ s.tasks, t.status = "offered" → ∀ e, t.executor_id = some e →
    ¬ hasRej t.task_id e s.offers

/-- The inductive invariant of the offer subsystem. -/
def INV (s : DB) : Prop := UNIQ s ∧ NoPR s ∧ INVOFF s

theorem isPendingPair_iff (tid eid : Nat) (o : Offer) :
    isPendingPair tid eid o = true ↔
      o.task_id = tid ∧ o.executor_id = eid ∧ o.status = "pending" := by
  simp [isPendingPair, Bool.and_eq_true, and_assoc]

theorem hasPendingPair_iff_any (tid eid : Nat) (l : List Offer) :
    hasPendingPair tid eid l ↔ l.any (isPendingPair tid eid) = true := by
  simp [hasPendingPair, hasStatusPair, List.any_eq_true, isPendingPair_iff]

theorem mem_setOfferStatus (p : Offer → Bool) (st : String) (l : List Offer)
    (o' : Offer) :
    o' ∈ setOfferStatus p st l ↔
      ∃ o ∈ l, o' = if p o then { o with status := st } else o := by
  constructor
  · intro h
    rcases List.mem_map.1 h with ⟨o, ho, he⟩
    exact ⟨o, ho, he.symm⟩
  · rintro ⟨o, ho, rfl⟩
    exact List.mem_map.2 ⟨o, ho, rfl⟩

theorem hasStatusPair_setOfferStatus_imp (p : Offer → Bool) (st st' : String)
    (hst : st' ≠ st) (tid eid : Nat) (l : List Offer) :
    hasStatusPair st tid eid (setOfferStatus p st' l) →
      hasStatusPair st tid eid l := by
  rintro ⟨o', ho', h1, h2, h3⟩
  rcases (mem_setOfferStatus p st' l o').1 ho' with ⟨o, ho, rfl⟩
  by_cases hp : p o = true
  · simp [hp] at h3
    exact absurd h3 hst
  · simp [hp] at h1 h2 h3 ⊢
    exact ⟨o, ho, h1, h2, h3⟩

theorem hasStatusPair_setOfferStatus_of_not_hit (p : Offer → Bool)
    (st st' : String) (tid eid : Nat) (l : List Offer)
    (hp : ∀ o ∈ l, o.task_id = tid → o.executor_id = eid → o.status = st →
      p o = false)
    (h : hasStatusPair st tid eid l) :
    hasStatusPair st tid eid (setOfferStatus p st' l) := by
  rcases h with ⟨o, ho, h1, h2, h3⟩
  refine ⟨o, (mem_setOfferStatus p st' l o).2 ⟨o, ho, ?_⟩, h1, h2, h3⟩
  simp [hp o ho h1 h2 h3]

theorem hasStatusPair_append (st : String) (tid eid : Nat) (l1 l2 : List Offer) :
    hasStatusPair st tid eid (l1 ++ l2) ↔
      hasStatusPair st tid eid l1 ∨ hasStatusPair st tid eid l2 := by
  constructor
  · rintro ⟨o, ho, h⟩
    rcases List.mem_append.1 ho with h1 | h2
    · exact Or.inl ⟨o, h1, h⟩
    · exact Or.inr ⟨o, h2, h⟩
  · rintro (⟨o, ho, h⟩ | ⟨o, ho, h⟩)
    · exact ⟨o, List.mem_append.2 (Or.inl ho), h⟩
    · exact ⟨o, List.mem_append.2 (Or.inr ho), h⟩

theorem hasStatusPair_filter_imp (p : Offer → Bool) (st : String)
    (tid eid : Nat) (l : List Offer) :
    hasStatusPair st tid eid (l.filter p) → hasStatusPair st tid eid l := by
  rintro ⟨o, ho, h⟩
  exact ⟨o, (List.mem_filter.1 ho).1, h⟩

theorem hasStatusPair_filter_of_kept (p : Offer → Bool) (st : String)
    (hp : ∀ o, o.status = st → p o = true) (tid eid : Nat)
    (l : List Offer) (h : hasStatusPair st tid eid l) :
    hasStatusPair st tid eid (l.filter p) := by
  rcases h with ⟨o, ho, h1, h2, h3⟩
  exact ⟨o, List.mem_filter.2 ⟨ho, hp o h3⟩, h1, h2, h3⟩

theorem not_hasPendingPair_setOfferStatus_self (st' : String)
    (hst : st' ≠ "pending") (tid eid : Nat) (l : List Offer) :
    ¬ hasPendingPair tid eid (setOfferStatus (isPendingPair tid eid) st' l) := by
  rintro ⟨o', ho', h1, h2, h3⟩
  rcases (mem_setOfferStatus _ st' l o').1 ho' with ⟨o, ho, rfl⟩
  by_cases hp : isPendingPair tid eid o = true
  · simp [hp] at h3
    exact hst h3
  · simp [hp] at h1 h2 h3
    exact hp ((isPendingPair_iff tid eid o).2 ⟨h1, h2, h3⟩)

theorem hasPendingPair_setOfferStatus_imp (p : Offer → Bool) (st' : String)
    (hst : st' ≠ "pending") (tid eid : Nat) (l : List Offer) :
    hasPendingPair tid eid (setOfferStatus p st' l) →
      hasPendingPair tid eid l :=
  hasStatusPair_setOfferStatus_imp p "pending" st' hst tid eid l

theorem hasRej_setOfferStatus_imp (p : Offer → Bool) (st' : String)
    (hst : st' ≠ "rejected") (tid eid : Nat) (l : List Offer) :
    hasRej tid eid (setOfferStatus p st' l) → hasRej tid eid l :=
  hasStatusPair_setOfferStatus_imp p "rejected" st' hst tid eid l

theorem countP_setOfferStatus_le (p : Offer → Bool) (st : String)
    (hst : st ≠ "pending") (tid eid : Nat) (l : List Offer) :
    (setOfferStatus p st l).countP (isPendingPair tid eid) ≤
      l.countP (isPendingPair tid eid) := by
  induction l with
  | nil => simp [setOfferStatus]
  | cons o l ih =>
    simp only [setOfferStatus] at ih
    by_cases hp : p o = true
    · have hnp : ¬ (isPendingPair tid eid { o with status := st } = true) := by
        simp [isPendingPair, hst]
      simp only [setOfferStatus, List.map_cons, if_pos hp, List.countP_cons, if_neg hnp]
      omega
    · simp only [setOfferStatus, List.map_cons, if_neg hp, List.countP_cons]
      omega

theorem countP_filter_le (p q : Offer → Bool) (l : List Offer) :
    (l.filter p).countP q ≤ l.countP q := by
  induction l with
  | nil => simp
  | cons o l ih =>
    by_cases hp : p o = true <;> by_cases hq : q o = true <;>
      simp [List.countP_cons, hp, hq] <;> omega

theorem hasStatusPair_setOfferStatus_cases (p : Offer → Bool) (st st' : String)
    (tid eid : Nat) (l : List Offer)
    (h : hasStatusPair st tid eid (setOfferStatus p st' l)) :
    (st = st' ∧ ∃ o ∈ l, p o = true ∧ o.task_id = tid ∧ o.executor_id = eid) ∨
      hasStatusPair st tid eid l := by
  rcases h with ⟨o', ho', h1, h2, h3⟩
  rcases (mem_setOfferStatus p st' l o').1 ho' with ⟨o, ho, rfl⟩
  by_cases hp : p o = true
  · simp [hp] at h1 h2 h3
    exact Or.inl ⟨h3.symm, o, ho, hp, h1, h2⟩
  · simp [hp] at h1 h2 h3
    exact Or.inr ⟨o, ho, h1, h2, h3⟩

theorem setOfferStatus_of_no_hit (p : Offer → Bool) (st : String)
    (l : List Offer) (h : ∀ o ∈ l, p o = false) : setOfferStatus p st l = l := by
  induction l with
  | nil => rfl
  | cons o l ih =>
    simp only [setOfferStatus, List.map_cons, h o (List.mem_cons_self o l),
      Bool.false_eq_true, if_false]
    exact congrArg (o :: ·) (ih (fun o' ho' => h o' (List.mem_cons_of_mem o ho')))

theorem hasStatusPair_singleton (st : String) (tid eid : Nat) (o : Offer) :
    hasStatusPair st tid eid [o] ↔
      o.task_id = tid ∧ o.executor_id = eid ∧ o.status = st := by
  simp [hasStatusPair]

/-- The invariant depends only on the offers and tasks tables. -/
theorem INV_congr (db db' : DB) (h : INV db) (ho : db'.offers = db.offers)
    (ht : db'.tasks = db.tasks) : INV db' := by
  obtain ⟨h1, h2, h3⟩ := h
  refine ⟨?_, ?_, ?_⟩
  · intro tid eid; rw [ho]; exact h1 tid eid
  · intro tid eid hp hr; rw [ho] at hp hr; exact h2 tid eid hp hr
  · intro t ht' hst e he
    rw [ht] at ht'
    rw [ho]
    exact h3 t ht' hst e he

theorem get_task_some_id (tid : Nat) (db : DB) (task : Task)
    (h : get_task tid db = some task) : task.task_id = tid := by
  have := List.find?_some h
  simpa using this

theorem mem_insertSorted {α : Type} (le : α → α → Bool) (x a : α) (l : List α) :
    a ∈ insertSorted le x l ↔ a = x ∨ a ∈ l := by
  induction l with
  | nil => simp [insertSorted]
  | cons y ys ih =>
    by_cases hle : le x y = true
    · simp [insertSorted, hle]
    · simp only [insertSorted, hle, Bool.false_eq_true, if_false, List.mem_cons, ih]
      tauto

theorem mem_stableSort {α : Type} (le : α → α → Bool) (a : α) (l : List α) :
    a ∈ stableSort le l ↔ a ∈ l := by
  induction l with
  | nil => simp [stableSort]
  | cons x xs ih =>
    simp only [stableSort, mem_insertSorted, List.mem_cons, ih]

theorem mem_getD_of_lt {α : Type} (l : List α) (i : Nat) (d : α)
    (h : i < l.length) : l.getD i d ∈ l := by
  induction l generalizing i with
  | nil => simp at h
  | cons x xs ih =>
    cases i with
    | zero => simp
    | succ j =>
      simp only [List.getD_cons_succ, List.mem_cons]
      exact Or.inr (ih j (by simpa using h))

theorem findPool_not_declined (task : Task) (exclude : Option Nat) (db : DB)
    (c : Candidate) (hc : c ∈ findPool task exclude db) :
    (get_declined_executors_for_task task.task_id db).contains c.user.user_id = false := by
  unfold findPool at hc
  have h3 := (List.mem_filter.1 hc).1
  have h2 := List.mem_filter.1 h3
  have := h2.2
  simpa using this

theorem not_hasRej_of_findPool (task : Task) (exclude : Option Nat) (db : DB)
    (c : Candidate) (hc : c ∈ findPool task exclude db) :
    ¬ hasRej task.task_id c.user.user_id db.offers := by
  intro hr
  rcases hr with ⟨o, ho, h1, h2, h3⟩
  have hmem : c.user.user_id ∈ get_declined_executors_for_task task.task_id db := by
    unfold get_declined_executors_for_task
    rw [List.mem_dedup]
    refine List.mem_map.2 ⟨o, ?_, h2⟩
    refine List.mem_filter.2 ⟨ho, ?_⟩
    simp [h1, h3]
  have := findPool_not_declined task exclude db c hc
  rw [List.contains_eq_any_beq] at this
  simp [List.any_eq_true] at this
  exact this _ hmem rfl

theorem findPool_mem_pool_of_sorted (task : Task) (exclude : Option Nat)
    (db : DB) (le : Candidate → Candidate → Bool) (c : Candidate)
    (h : c ∈ stableSort le (findPool task exclude db)) :
    c ∈ findPool task exclude db :=
  (mem_stableSort le c _).1 h

theorem dispatchOffer_shape (tid cuid : Nat) (db : DB) :
    (dispatchOffer tid cuid db).1 = db ∨
    ((dispatchOffer tid cuid db).1 =
        { db with offers := db.offers ++ [⟨tid, cuid, "pending", db.now + 30 * 60⟩] } ∧
      db.offers.any (isPendingPair tid cuid) = false) := by
  unfold dispatchOffer create_task_offer
  by_cases hg : db.offers.any (isPendingPair tid cuid) = true
  · simp only [hg, if_true]
    exact Or.inl (by trivial)
  · have hg' : db.offers.any (isPendingPair tid cuid) = false := by
      cases hv : db.offers.any (isPendingPair tid cuid)
      · rfl
      · exact absurd hv hg
    simp only [hg', Bool.false_eq_true, if_false]
    exact Or.inr ⟨by trivial, by trivial⟩

theorem isPendingPair_new_offer (t e tid cuid x : Nat) :
    isPendingPair t e (⟨tid, cuid, "pending", x⟩ : Offer) = true ↔
      t = tid ∧ e = cuid := by
  simp [isPendingPair]
  tauto

theorem INV_dispatchOffer (tid cuid : Nat) (db : DB)
    (h : INV db) (hr : ¬ hasRej tid cuid db.offers) :
    INV (dispatchOffer tid cuid db).1 := by
  rcases dispatchOffer_shape tid cuid db with hs | ⟨hs, hg⟩
  · rw [hs]; exact h
  · obtain ⟨h1, h2, h3⟩ := h
    rw [hs]
    have hzero : db.offers.countP (isPendingPair tid cuid) = 0 := by
      rw [List.countP_eq_zero]
      intro o ho
      have := (List.any_eq_false).1 hg
      simpa using this o ho
    refine ⟨?_, ?_, ?_⟩
    · intro t e
      simp only [List.countP_append, List.countP_cons, List.countP_nil]
      by_cases hte : t = tid ∧ e = cuid
      · obtain ⟨rfl, rfl⟩ := hte
        have hsing : isPendingPair t e (⟨t, e, "pending", db.now + 30 * 60⟩ : Offer) = true := by
          simp [isPendingPair]
        simp only [hsing, if_true]
        omega
      · have : isPendingPair t e (⟨tid, cuid, "pending", db.now + 30 * 60⟩ : Offer) = false := by
          cases hv : isPendingPair t e (⟨tid, cuid, "pending", db.now + 30 * 60⟩ : Offer)
          · rfl
          · exact absurd ((isPendingPair_new_offer t e tid cuid _).1 hv) hte
        simp only [this, Bool.false_eq_true, if_false]
        have := h1 t e
        omega
    · intro t e hp hrej
      rcases (hasStatusPair_append "rejected" t e _ _).1 hrej with hrej1 | hrej2
      · rcases (hasStatusPair_append "pending" t e _ _).1 hp with hp1 | hp2
        · exact h2 t e hp1 hrej1
        · rcases (hasStatusPair_singleton "pending" t e _).1 hp2 with ⟨he1, he2, _⟩
          subst he1; subst he2
          exact hr hrej1
      · rcases (hasStatusPair_singleton "rejected" t e _).1 hrej2 with ⟨_, _, hbad⟩
        simp at hbad
    · intro t ht hst e he
      intro hrej
      rcases (hasStatusPair_append "rejected" t.task_id e _ _).1 hrej with hrej1 | hrej2
      swap
      · rcases (hasStatusPair_singleton "rejected" _ _ _).1 hrej2 with ⟨_, _, hbad⟩
        simp at hbad
      exact h3 t ht hst e he hrej1

theorem INV_find (tid : Nat) (excl : Option Nat) (pick : Nat)
    (db : DB) (h : INV db) :
    INV (find_and_notify_executor tid excl pick db).1 := by
  unfold find_and_notify_executor
  split
  · exact h
  · rename_i task hget
    split
    · split
      · exact h
      · rename_i best rest hsorted
        split
        · exact h
        · have hmem : (best :: rest).getD (pick % (best :: rest).length) best
              ∈ (best :: rest) :=
            mem_getD_of_lt _ _ _ (Nat.mod_lt _ (by simp))
          have hpool : (best :: rest).getD (pick % (best :: rest).length) best
              ∈ findPool task excl db := by
            rw [← mem_stableSort (offerSortLe task), hsorted]
            exact hmem
          have hrej := not_hasRej_of_findPool task excl db _ hpool
          rw [get_task_some_id tid db task hget] at hrej
          exact INV_dispatchOffer tid _ db h hrej
    · exact h

theorem INV_update_task_fields (tid : Nat) (st : String) (ex : Option (Option Nat))
    (db : DB) (h : INV db) (hst : st ≠ "offered") :
    INV (update_task_fields tid (some st) ex db).1 := by
  obtain ⟨h1, h2, h3⟩ := h
  refine ⟨h1, h2, ?_⟩
  intro t ht hto e he
  rcases List.mem_map.1 ht with ⟨t0, ht0, rfl⟩
  by_cases htid : (t0.task_id == tid) = true
  · simp only [htid, if_true] at hto
    exact absurd (by simpa using hto) hst
  · simp only [htid, Bool.false_eq_true, if_false] at hto he ⊢
    exact h3 t0 ht0 hto e he

theorem INV_accept_task_offer (tid eid : Nat) (db : DB) (h : INV db) :
    INV (accept_task_offer tid eid db).1 := by
  obtain ⟨h1, h2, h3⟩ := h
  unfold accept_task_offer
  split
  swap
  · exact ⟨h1, h2, h3⟩
  refine ⟨?_, ?_, ?_⟩
  · intro t e
    exact le_trans (countP_setOfferStatus_le _ _ (by simp) t e _)
      (le_trans (countP_setOfferStatus_le _ _ (by simp) t e _) (h1 t e))
  · intro t e hp hr
    have hp1 := hasPendingPair_setOfferStatus_imp _ "cancelled" (by simp) t e _ hp
    have hp0 := hasPendingPair_setOfferStatus_imp _ "accepted" (by simp) t e _ hp1
    have hr1 := hasRej_setOfferStatus_imp _ "cancelled" (by simp) t e _ hr
    have hr0 := hasRej_setOfferStatus_imp _ "accepted" (by simp) t e _ hr1
    exact h2 t e hp0 hr0
  · intro t ht hto e he hr
    rcases List.mem_map.1 ht with ⟨t0, ht0, rfl⟩
    by_cases hc : (t0.task_id == tid && t0.status == "searching") = true
    · simp only [hc, if_true] at hto
      simp at hto
    · simp only [hc, Bool.false_eq_true, if_false] at hto he hr
      have hr1 := hasRej_setOfferStatus_imp _ "cancelled" (by simp) _ e _ hr
      have hr0 := hasRej_setOfferStatus_imp _ "accepted" (by simp) _ e _ hr1
      exact h3 t0 ht0 hto e he hr0

theorem INV_respond (tid eid : Nat) (accept : Bool) (pick : Nat)
    (db : DB) (h : INV db) : INV (respondToOffer tid eid accept pick db).1 := by
  unfold respondToOffer
  split
  · exact h
  · rename_i task hget
    split
    · exact h
    · split
      · exact h
      · rename_i offer hoffer
        split
        · -- accept branch
          simp only []
          split
          · rename_i hacc
            have hA := INV_accept_task_offer tid eid db h
            have hB : INV (cancelTimer tid (accept_task_offer tid eid db).1) :=
              INV_congr _ _ hA rfl rfl
            obtain ⟨b1, b2, b3⟩ := hB
            refine ⟨?_, ?_, ?_⟩
            · intro t e
              exact le_trans (countP_setOfferStatus_le _ _ (by simp) t e _) (b1 t e)
            · intro t e hp hr
              have hp0 := hasPendingPair_setOfferStatus_imp _ "accepted" (by simp) t e _ hp
              have hr0 := hasRej_setOfferStatus_imp _ "accepted" (by simp) t e _ hr
              exact b2 t e hp0 hr0
            · intro t ht hto e he hr
              have hr0 := hasRej_setOfferStatus_imp _ "accepted" (by simp) _ e _ hr
              exact b3 t ht hto e he hr0
          · exact INV_accept_task_offer tid eid db h
        · -- decline branch
          simp only []
          apply INV_find
          split
          · -- reject succeeded: rejected (tid,eid) rows appear, and in the same
            -- step the task is reset to `searching`, restoring the invariant
            obtain ⟨h1, h2, h3⟩ := h
            refine ⟨?_, ?_, ?_⟩
            · intro t e
              exact le_trans (countP_setOfferStatus_le _ _ (by simp) t e _) (h1 t e)
            · intro t e hp hr
              rcases hasStatusPair_setOfferStatus_cases _ _ _ t e _ hr with
                ⟨_, o, ho, hpo, ho1, ho2⟩ | hr0
              · have hpe := (isPendingPair_iff tid eid o).1 hpo
                have ht' : t = tid := by rw [← ho1]; exact hpe.1
                have he' : e = eid := by rw [← ho2]; exact hpe.2.1
                subst ht'; subst he'
                exact not_hasPendingPair_setOfferStatus_self "rejected"
                  (by simp) t e _ hp
              · have hp0 := hasPendingPair_setOfferStatus_imp _ "rejected"
                  (by simp) t e _ hp
                exact h2 t e hp0 hr0
            · intro t ht hto e he hr
              rcases List.mem_map.1 ht with ⟨t0, ht0, rfl⟩
              by_cases htid : (t0.task_id == tid) = true
              · simp only [htid, if_true] at hto
                simp at hto
              · simp only [htid, Bool.false_eq_true, if_false] at hto he hr ⊢
                rcases hasStatusPair_setOfferStatus_cases _ _ _ _ e _ hr with
                  ⟨_, o, ho, hpo, ho1, ho2⟩ | hr0
                · have hpe := (isPendingPair_iff tid eid o).1 hpo
                  have : t0.task_id = tid := by rw [← ho1]; exact hpe.1
                  rw [this] at htid
                  simp at htid
                · exact h3 t0 ht0 hto e he hr0
          · rename_i hrej
            have hfalse : ((cancelTimer tid db).offers.any (isPendingPair tid eid)) = false := by
              have hh : ¬ ((reject_task_offer tid eid (cancelTimer tid db)).2 = true) := hrej
              simpa [reject_task_offer] using hh
            have hno : ∀ o ∈ (cancelTimer tid db).offers, isPendingPair tid eid o = false := by
              intro o ho
              have := (List.any_eq_false).1 hfalse o ho
              simpa using this
            have heq := setOfferStatus_of_no_hit (isPendingPair tid eid) "rejected" _ hno
            apply INV_congr db _ h
            · simpa using heq
            · rfl

theorem acceptance_timeout_core_shape (tid eid : Nat) (db : DB) :
    ∃ users', acceptance_timeout_core tid eid db =
      { db with
        offers := setOfferStatus
          (fun o => o.task_id == tid && o.executor_id == eid) "expired" db.offers,
        tasks := db.tasks.map (fun t =>
          if t.task_id == tid then
            { t with status := "searching", executor_id := none }
          else t),
        users := users' } := by
  unfold acceptance_timeout_core
  simp only []
  split
  · exact ⟨_, rfl⟩
  · exact ⟨_, rfl⟩

theorem INV_timeout_core (tid eid : Nat) (db : DB) (h : INV db) :
    INV (acceptance_timeout_core tid eid db) := by
  obtain ⟨h1, h2, h3⟩ := h
  rcases acceptance_timeout_core_shape tid eid db with ⟨users', hshape⟩
  rw [hshape]
  refine ⟨?_, ?_, ?_⟩
  · intro t e
    exact le_trans (countP_setOfferStatus_le _ _ (by simp) t e _) (h1 t e)
  · intro t e hp hr
    have hp0 := hasPendingPair_setOfferStatus_imp _ "expired" (by simp) t e _ hp
    have hr0 := hasRej_setOfferStatus_imp _ "expired" (by simp) t e _ hr
    exact h2 t e hp0 hr0
  · intro t ht hto e he hr
    rcases List.mem_map.1 ht with ⟨t0, ht0, rfl⟩
    by_cases htid : (t0.task_id == tid) = true
    · simp only [htid, if_true] at hto
      simp at hto
    · simp only [htid, Bool.false_eq_true, if_false] at hto he hr ⊢
      have hr0 := hasRej_setOfferStatus_imp _ "expired" (by simp) _ e _ hr
      exact h3 t0 ht0 hto e he hr0

theorem INV_fireTimer (entry : Nat × Nat × Nat × Bool) (pick : Nat)
    (db : DB) (h : INV db) :
    INV (fireTimer entry pick db) := by
  unfold fireTimer
  simp only []
  have h0 : INV { db with timers := db.timers.erase entry } :=
    INV_congr db _ h rfl rfl
  split
  · exact h0
  · rename_i task hget
    split
    · apply INV_congr _ _ (INV_find _ _ _ _ (INV_timeout_core _ _ _ h0)) rfl rfl
    · exact h0

theorem INV_cleanup (db : DB) (h : INV db) : INV (cleanup_expired_offers db) := by
  obtain ⟨h1, h2, h3⟩ := h
  unfold cleanup_expired_offers
  simp only []
  refine ⟨?_, ?_, ?_⟩
  · intro t e
    exact le_trans (countP_filter_le _ _ _) (h1 t e)
  · intro t e hp hr
    exact h2 t e (hasStatusPair_filter_imp _ _ t e _ hp)
      (hasStatusPair_filter_imp _ _ t e _ hr)
  · intro t ht hto e he hr
    rcases List.mem_map.1 ht with ⟨t0, ht0, rfl⟩
    split at hto
    · simp at hto
    · rename_i hcc
      rw [if_neg hcc] at he hr
      exact h3 t0 ht0 hto e he (hasStatusPair_filter_imp _ _ _ e _ hr)

theorem INV_cancel_task (tid uid : Nat) (db : DB) (h : INV db) :
    INV (cancel_task tid uid db).1 := by
  unfold cancel_task
  split
  · exact h
  · split
    · exact h
    · split
      · exact h
      · exact INV_congr _ _
          (INV_update_task_fields tid "canceled" none db h (by simp)) rfl rfl

theorem INV_complete_task (tid eid : Nat) (db : DB) (h : INV db) :
    INV (complete_task tid eid db).1 := by
  unfold complete_task
  split
  · exact h
  · split
    · exact h
    · split
      · exact h
      · exact INV_update_task_fields tid "pending_approval" none db h (by simp)

theorem INV_approve (tid uid : Nat) (db : DB) (h : INV db) :
    INV (approve_task_completion tid uid db).1 := by
  unfold approve_task_completion
  split
  · exact h
  · rename_i task hget
    split
    · exact h
    · split
      · exact h
      · simp only []
        split
        · apply INV_congr _ _
            (INV_update_task_fields tid "completed" none _
              (INV_congr db _ h rfl rfl) (by simp)) rfl rfl
        · exact INV_congr db _ h rfl rfl

theorem INV_dispute_task (tid uid did : Nat) (db : DB) (h : INV db) :
    INV (dispute_task tid uid did db).1 := by
  unfold dispute_task
  split
  · exact h
  · rename_i task hget
    split
    · exact h
    · split
      · exact h
      · have hmid : INV (create_dispute did tid task.customer_id
            (task.executor_id.getD 0) db) := INV_congr db _ h rfl rfl
        exact INV_congr _ _
          (INV_update_task_fields tid "dispute" none _ hmid (by simp)) rfl rfl

theorem INV_resolve_handler (did : Nat) (resolution : String) (admin : Nat)
    (db : DB) (h : INV db) :
    INV (resolve_dispute_handler did resolution admin db).1 := by
  unfold resolve_dispute_handler
  split
  · exact h
  · rename_i dispute hdisp
    split
    · exact h
    · rename_i task hget
      simp only []
      have hres : INV (resolve_dispute did resolution admin db).1 :=
        INV_congr db _ h rfl rfl
      split
      · exact hres
      · split
        · exact INV_congr _ _
            (INV_update_task_fields dispute.task_id "cancelled" none _
              (INV_congr _ _ hres rfl rfl) (by simp)) rfl rfl
        · split
          · exact INV_congr _ _
              (INV_update_task_fields dispute.task_id "completed" none _
                (INV_congr _ _ hres rfl rfl) (by simp)) rfl rfl
          · exact hres

theorem INV_withdraw (uid : Nat) (amount : ℚ) (wOk : Bool) (db : DB)
    (h : INV db) : INV (process_withdrawal uid amount wOk db).1 := by
  unfold process_withdrawal
  split
  · exact h
  · split
    · exact h
    · simp only []
      split
      · exact INV_congr db _ h rfl rfl
      · split
        · exact INV_congr db _ h rfl rfl
        · exact INV_congr db _ h rfl rfl

theorem INV_create_task (tid cid : Nat) (category : String) (tags : List String)
    (price : ℚ) (is_vip : Bool) (db : DB) (h : INV db) :
    INV (create_task tid cid category tags price is_vip db) := by
  obtain ⟨h1, h2, h3⟩ := h
  refine ⟨h1, h2, ?_⟩
  intro t ht hto e he
  rcases List.mem_append.1 ht with ht0 | ht0
  · exact h3 t ht0 hto e he
  · simp at ht0
    rw [ht0] at hto
    simp at hto

theorem INV_create_task_final (uid : Nat) (category : String)
    (tags : List String) (price : ℚ) (vip : Bool) (tid pick : Nat)
    (db : DB) (h : INV db) :
    INV (create_task_final uid category tags price vip tid pick db).1 := by
  unfold create_task_final
  split
  · exact h
  · simp only []
    split
    · exact h
    · split
      · exact INV_congr db _ h rfl rfl
      · apply INV_find
        apply INV_create_task
        exact INV_congr db _ h rfl rfl

theorem INV_step (s s' : DB) (h : INV s) (hs : Step s s') : INV s' := by
  cases hs with
  | createTask uid category tags price vip tid pick s hfresh =>
    exact INV_create_task_final uid category tags price vip tid pick s h
  | dispatch tid pick s => exact INV_find tid none pick s h
  | respond tid eid accept pick s =>
    exact INV_respond tid eid accept pick s h
  | timeout entry pick s hmem hdue =>
    exact INV_fireTimer entry pick s h
  | cleanupStep s => exact INV_cleanup s h
  | tick d s => exact INV_congr s _ h rfl rfl
  | cancel tid uid s => exact INV_cancel_task tid uid s h
  | complete tid eid s => exact INV_complete_task tid eid s h
  | approve tid uid s => exact INV_approve tid uid s h
  | openDispute tid uid did s hfresh => exact INV_dispute_task tid uid did s h
  | resolve did resolution admin s =>
    exact INV_resolve_handler did resolution admin s h
  | withdraw uid amount wOk s => exact INV_withdraw uid amount wOk s h

theorem INV_init (s0 : DB) (h0 : InitDB s0) : INV s0 := by
  obtain ⟨ho, _⟩ := h0
  refine ⟨?_, ?_, ?_⟩
  · intro t e
    rw [ho]
    simp
  · intro t e hp
    rw [ho] at hp
    rcases hp with ⟨o, hmem, _⟩
    simp at hmem
  · intro t ht hto e he hr
    rw [ho] at hr
    rcases hr with ⟨o, hmem, _⟩
    simp at hmem

theorem INV_reachable (s0 s : DB) (h0 : InitDB s0) (hsteps : Steps s0 s) :
    INV s := by
  induction hsteps with
  | refl => exact INV_init s0 h0
  | tail hab hbc ih => exact INV_step _ _ ih hbc

theorem INV_steps (s s' : DB) (h : INV s) (hsteps : Steps s s') : INV s' := by
  induction hsteps with
  | refl => exact h
  | tail hab hbc ih => exact INV_step _ _ ih hbc

theorem cancel_task_offers (tid uid : Nat) (db : DB) :
    (cancel_task tid uid db).1.offers = db.offers := by
  unfold cancel_task
  split
  · rfl
  · split
    · rfl
    · split
      · rfl
      · rfl

theorem complete_task_offers (tid eid : Nat) (db : DB) :
    (complete_task tid eid db).1.offers = db.offers := by
  unfold complete_task
  split
  · rfl
  · split
    · rfl
    · split
      · rfl
      · rfl

theorem approve_offers (tid uid : Nat) (db : DB) :
    (approve_task_completion tid uid db).1.offers = db.offers := by
  unfold approve_task_completion
  split
  · rfl
  · split
    · rfl
    · split
      · rfl
      · simp only []
        split
        · rfl
        · rfl

theorem dispute_task_offers (tid uid did : Nat) (db : DB) :
    (dispute_task tid uid did db).1.offers = db.offers := by
  unfold dispute_task
  split
  · rfl
  · split
    · rfl
    · split
      · rfl
      · rfl

theorem resolve_handler_offers (did : Nat) (resolution : String) (admin : Nat)
    (db : DB) :
    (resolve_dispute_handler did resolution admin db).1.offers = db.offers := by
  unfold resolve_dispute_handler
  split
  · rfl
  · split
    · rfl
    · simp only []
      split
      · rfl
      · split
        · rfl
        · split
          · rfl
          · rfl

theorem withdraw_offers (uid : Nat) (amount : ℚ) (wOk : Bool) (db : DB) :
    (process_withdrawal uid amount wOk db).1.offers = db.offers := by
  unfold process_withdrawal
  split
  · rfl
  · split
    · rfl
    · simp only []
      split
      · rfl
      · split
        · rfl
        · rfl

theorem hasRej_persists_dispatchOffer (tid cuid : Nat) (db : DB)
    (t e : Nat) (hr : hasRej t e db.offers) :
    hasRej t e (dispatchOffer tid cuid db).1.offers := by
  rcases dispatchOffer_shape tid cuid db with hs | ⟨hs, _⟩
  · rw [hs]; exact hr
  · rw [hs]
    exact (hasStatusPair_append "rejected" t e _ _).2 (Or.inl hr)

theorem hasRej_persists_find (tid : Nat) (excl : Option Nat) (pick : Nat)
    (db : DB) (t e : Nat) (hr : hasRej t e db.offers) :
    hasRej t e (find_and_notify_executor tid excl pick db).1.offers := by
  unfold find_and_notify_executor
  split
  · exact hr
  · split
    · split
      · exact hr
      · split
        · exact hr
        · exact hasRej_persists_dispatchOffer _ _ _ _ _ hr
    · exact hr

theorem hasRej_persists_respond (tid eid : Nat) (accept : Bool) (pick : Nat)
    (db : DB) (h : INV db) (t e : Nat)
    (hr : hasRej t e db.offers) :
    hasRej t e (respondToOffer tid eid accept pick db).1.offers := by
  unfold respondToOffer
  split
  · exact hr
  · rename_i task hget
    split
    · exact hr
    · split
      · exact hr
      · rename_i offer hoffer
        -- the pending (tid, eid) offer exists, so by NoPR (t,e) ≠ (tid,eid)
        have hpend : hasPendingPair tid eid db.offers := by
          have hfind := List.find?_some hoffer
          have hmem := List.mem_of_find?_eq_some hoffer
          simp only [Bool.and_eq_true] at hfind
          rcases (isPendingPair_iff tid eid offer).1 hfind.1 with ⟨a, b, c⟩
          exact ⟨offer, hmem, a, b, c⟩
        have hne : ¬ (t = tid ∧ e = eid) := by
          rintro ⟨rfl, rfl⟩
          exact h.2.1 t e hpend hr
        have hnothit : ∀ (p : Offer → Bool), (∀ o, p o = true →
            o.task_id = tid ∧ o.executor_id = eid) →
            ∀ l, hasRej t e l → hasRej t e (setOfferStatus p "accepted" l) := by
          intro p hp l hl
          apply hasStatusPair_setOfferStatus_of_not_hit
          · intro o _ h1 h2 _
            cases hpo : p o
            · rfl
            · rcases hp o hpo with ⟨ha, hb⟩
              exact absurd ⟨h1 ▸ ha, h2 ▸ hb⟩ hne
          · exact hl
        split
        · -- accept
          simp only []
          split
          · -- accept succeeded: three status rewrites, none touches (t,e)
            have s1 : hasRej t e (accept_task_offer tid eid db).1.offers := by
              unfold accept_task_offer
              split
              · apply hasStatusPair_setOfferStatus_of_not_hit
                · intro o _ _ _ h3
                  cases hpo : (o.task_id == tid && !(o.executor_id == eid) &&
                      o.status == "pending")
                  · rfl
                  · simp only [Bool.and_eq_true] at hpo
                    have := hpo.2
                    simp [h3] at this
                · apply hasStatusPair_setOfferStatus_of_not_hit
                  · intro o _ _ _ h3
                    cases hpo : isPendingPair tid eid o
                    · rfl
                    · have := ((isPendingPair_iff tid eid o).1 hpo).2.2
                      simp [h3] at this
                  · exact hr
              · exact hr
            exact hnothit _ (fun o hpo => by
                simp only [Bool.and_eq_true] at hpo
                exact ⟨by simpa using hpo.1, by simpa using hpo.2⟩) _ s1
          · -- accept failed
            unfold accept_task_offer
            split
            · rename_i hg
              apply hasStatusPair_setOfferStatus_of_not_hit
              · intro o _ _ _ h3
                cases hpo : (o.task_id == tid && !(o.executor_id == eid) &&
                    o.status == "pending")
                · rfl
                · simp only [Bool.and_eq_true] at hpo
                  have := hpo.2
                  simp [h3] at this
              · apply hasStatusPair_setOfferStatus_of_not_hit
                · intro o _ _ _ h3
                  cases hpo : isPendingPair tid eid o
                  · rfl
                  · have := ((isPendingPair_iff tid eid o).1 hpo).2.2
                    simp [h3] at this
                · exact hr
            · exact hr
        · -- decline
          simp only []
          apply hasRej_persists_find
          split
          · apply hasStatusPair_setOfferStatus_of_not_hit
            · intro o _ _ _ h3
              cases hpo : isPendingPair tid eid o
              · rfl
              · have := ((isPendingPair_iff tid eid o).1 hpo).2.2
                simp [h3] at this
            · exact hr
          · apply hasStatusPair_setOfferStatus_of_not_hit
            · intro o _ _ _ h3
              cases hpo : isPendingPair tid eid o
              · rfl
              · have := ((isPendingPair_iff tid eid o).1 hpo).2.2
                simp [h3] at this
            · exact hr

theorem hasRej_persists_fireTimer (entry : Nat × Nat × Nat × Bool) (pick : Nat)
    (db : DB) (h : INV db) (t e : Nat)
    (hr : hasRej t e db.offers) :
    hasRej t e (fireTimer entry pick db).offers := by
  unfold fireTimer
  simp only []
  split
  · exact hr
  · rename_i task hget
    split
    · rename_i hguard
      -- the task is offered to entry.2.1, so INVOFF rules out a rejected
      -- (entry.1, entry.2.1) row, hence (t,e) is a different pair
      simp only [Bool.and_eq_true] at hguard
      have htmem : task ∈ db.tasks := List.mem_of_find?_eq_some hget
      have htid : task.task_id = entry.1 :=
        get_task_some_id entry.1 { db with timers := db.timers.erase entry } task hget
      have hsto : task.status = "offered" := by simpa using hguard.1
      have hexe : task.executor_id = some entry.2.1 := by simpa using hguard.2
      have hnorej : ¬ hasRej entry.1 entry.2.1 db.offers := by
        have := h.2.2 task htmem hsto entry.2.1 hexe
        rwa [htid] at this
      have hne : ¬ (t = entry.1 ∧ e = entry.2.1) := by
        rintro ⟨rfl, rfl⟩
        exact hnorej hr
      apply hasRej_persists_find
      rcases acceptance_timeout_core_shape entry.1 entry.2.1
          { db with timers := db.timers.erase entry } with ⟨users', hshape⟩
      rw [hshape]
      apply hasStatusPair_setOfferStatus_of_not_hit
      · intro o _ h1 h2 _
        cases hpo : (o.task_id == entry.1 && o.executor_id == entry.2.1)
        · rfl
        · simp only [Bool.and_eq_true] at hpo
          exact absurd ⟨h1 ▸ (by simpa using hpo.1), h2 ▸ (by simpa using hpo.2)⟩ hne
      · exact hr
    · exact hr

theorem hasRej_persists_cleanup (db : DB) (t e : Nat)
    (hr : hasRej t e db.offers) :
    hasRej t e (cleanup_expired_offers db).offers := by
  unfold cleanup_expired_offers
  simp only []
  apply hasStatusPair_filter_of_kept
  · intro o h3
    simp [h3]
  · exact hr

theorem hasRej_persists_create_task_final (uid : Nat) (category : String)
    (tags : List String) (price : ℚ) (vip : Bool) (tid pick : Nat)
    (db : DB) (t e : Nat) (hr : hasRej t e db.offers) :
    hasRej t e (create_task_final uid category tags price vip tid pick db).1.offers := by
  unfold create_task_final
  split
  · exact hr
  · simp only []
    split
    · exact hr
    · split
      · exact hr
      · exact hasRej_persists_find _ _ _ _ _ _ hr

theorem hasRej_persists_step (s s' : DB) (h : INV s) (hs : Step s s')
    (t e : Nat) (hr : hasRej t e s.offers) : hasRej t e s'.offers := by
  cases hs with
  | createTask uid category tags price vip tid pick s hfresh =>
    exact hasRej_persists_create_task_final _ _ _ _ _ _ _ _ _ _ hr
  | dispatch tid pick s => exact hasRej_persists_find _ _ _ _ _ _ hr
  | respond tid eid accept pick s =>
    exact hasRej_persists_respond _ _ _ _ _ h _ _ hr
  | timeout entry pick s hmem hdue =>
    exact hasRej_persists_fireTimer _ _ _ h _ _ hr
  | cleanupStep s => exact hasRej_persists_cleanup _ _ _ hr
  | tick d s => exact hr
  | cancel tid uid s => rw [cancel_task_offers]; exact hr
  | complete tid eid s => rw [complete_task_offers]; exact hr
  | approve tid uid s => rw [approve_offers]; exact hr
  | openDispute tid uid did s hfresh => rw [dispute_task_offers]; exact hr
  | resolve did resolution admin s => rw [resolve_handler_offers]; exact hr
  | withdraw uid amount wOk s => rw [withdraw_offers]; exact hr

theorem hasRej_persists_steps (s s' : DB) (h : INV s) (hsteps : Steps s s')
    (t e : Nat) (hr : hasRej t e s.offers) : hasRej t e s'.offers := by
  induction hsteps with
  | refl => exact hr
  | tail hab hbc ih =>
    exact hasRej_persists_step _ _ (INV_steps _ _ h hab) hbc t e ih

theorem findPool_excludes_rejected (task : Task) (excl : Option Nat) (db : DB)
    (e : Nat) (hr : hasRej task.task_id e db.offers) :
    ∀ c ∈ findPool task excl db, c.user.user_id ≠ e := by
  intro c hc heq
  exact not_hasRej_of_findPool task excl db c hc (heq ▸ hr)

theorem findPool_excludes_param (task : Task) (e : Nat) (db : DB) :
    ∀ c ∈ findPool task (some e) db, c.user.user_id ≠ e := by
  intro c hc
  unfold findPool at hc
  have h4 := (List.mem_filter.1 hc).1
  have h3 := (List.mem_filter.1 h4).1
  have h2 := (List.mem_filter.1 h3).1
  have := (List.mem_filter.1 h2).2
  simpa using this

/-- Fixture: an executor with full tag coverage, top rating and ten
completed tasks (priority 1.2). -/
def execA : User :=
  ⟨100001, some "alex", 0, 0, 0, 5, 10, some true, false, 0,
    some [("programming", ["python", "api", "react", "django"])]⟩

/-- Fixture: a second executor with full tag coverage, top rating, no
completed tasks (priority 0.9). -/
def execB : User :=
  ⟨100002, some "bob", 0, 0, 0, 5, 0, some true, false, 0,
    some [("programming", ["python", "api", "react", "django"])]⟩

/-- Fixture: the customer. -/
def custC : User :=
  ⟨100003, some "carol", 200, 0, 0, 5, 0, some true, false, 0, none⟩

/-- Fixture: a non-VIP task of customer 100003 in `searching`. -/
def taskT : Task :=
  ⟨1, 100003, none, "programming", ["python", "api", "react", "django"],
    100, false, "searching"⟩

/-- Fixture: initial state for the C1 scenario. -/
def c1_s0 : DB := ⟨[execA, execB, custC], [taskT], [], [], [], 0⟩

/-- After the first dispatch the offer to executor 100001 is created but
the send raises (see `dispatchOffer`), so the task stays `searching` and
the offer row stays `pending`. -/
def c1_s1 : DB := (find_and_notify_executor 1 none 0 c1_s0).1

/-- A second dispatch now excludes 100001 (pending unexpired offer) and
creates a `pending` offer for 100002: two `pending` offers for task 1. -/
def c1_s2 : DB := (find_and_notify_executor 1 none 0 c1_s1).1

theorem c1_reach : Steps c1_s0 c1_s2 :=
  Relation.ReflTransGen.head (Step.dispatch 1 0 c1_s0)
    (Relation.ReflTransGen.head (Step.dispatch 1 0 c1_s1)
      Relation.ReflTransGen.refl)

/-- C1 counterexample: the per-task at-most-one-pending-offer invariant is
FALSE on the code.  From an initial state with one searching task and two
eligible executors, a dispatch whose Telegram send fails (the offer row is
created before the send; on failure the task is never marked `offered`)
followed by an ordinary scheduler re-dispatch leaves TWO `pending` offers
referencing task 1. -/
theorem c1_counterexample :
    ¬ (∀ s, ReachableState s → ∀ tid,
        s.offers.countP (fun o => o.task_id == tid && o.status == "pending") ≤ 1) := by
  intro hclaim
  have h := hclaim c1_s2 ⟨c1_s0, ⟨rfl, rfl⟩, c1_reach⟩ 1
  have h2 : c1_s2.offers.countP
      (fun o => o.task_id == 1 && o.status == "pending") = 2 := by
    with_unfolding_all decide
  omega

/-- C1 (amended): in every reachable state, for every task AND EXECUTOR
pair, at most one `pending` offer row exists — the uniqueness check in
`create_task_offer` is per (task, executor), not per task, and the
per-task version is violated (see the counterexample). -/
theorem c1_per_pair_uniqueness (s0 s : DB) (h0 : InitDB s0)
    (hs : Steps s0 s) (tid eid : Nat) :
    s.offers.countP (isPendingPair tid eid) ≤ 1 :=
  (INV_reachable s0 s h0 hs).1 tid eid

/-- Witness for the amended C1 at the concrete two-dispatch run. -/
theorem c1_per_pair_uniqueness_witness :
    c1_s2.offers.countP (isPendingPair 1 100001) ≤ 1 :=
  c1_per_pair_uniqueness c1_s0 c1_s2 ⟨rfl, rfl⟩ c1_reach 1 100001

theorem find?_map_key {α : Type} (key : α → Nat) (tid : Nat) (f : α → α)
    (hid : ∀ a, key (f a) = key a) (l : List α) :
    (l.map (fun a => if key a == tid then f a else a)).find?
        (fun a => key a == tid) =
      (l.find? (fun a => key a == tid)).map f := by
  induction l with
  | nil => rfl
  | cons a0 as ih =>
    by_cases h0 : (key a0 == tid) = true
    · have hf : (key (f a0) == tid) = true := by rw [hid a0]; exact h0
      simp [List.find?, h0, hf]
    · have h0' : (key a0 == tid) = false := by
        cases hv : (key a0 == tid)
        · rfl
        · exact absurd hv h0
      simp only [List.map_cons, h0', Bool.false_eq_true, if_false, List.find?]
      exact ih

theorem get_user_updateUserRow (uid : Nat) (f : User → User) (db : DB)
    (hid : ∀ v, (f v).user_id = v.user_id) :
    get_user uid (updateUserRow uid f db).1 = (get_user uid db).map f :=
  find?_map_key User.user_id uid f hid db.users

theorem get_task_update_task_fields (tid : Nat) (st : Option String)
    (ex : Option (Option Nat)) (db : DB) :
    get_task tid (update_task_fields tid st ex db).1 =
      (get_task tid db).map (fun t =>
        { t with status := st.getD t.status, executor_id := ex.getD t.executor_id }) :=
  find?_map_key Task.task_id tid
    (fun t => { t with status := st.getD t.status,
                       executor_id := ex.getD t.executor_id })
    (fun t => rfl) db.tasks

/-- Mid-state of the timeout handler, before the task reset. -/
def timeoutMid (tid eid : Nat) (db : DB) : DB :=
  if 3 ≤ (increment_missed_tasks eid
      (update_task_offer_status tid eid "expired" db).1).2 then
    (set_work_status eid false (increment_missed_tasks eid
      (update_task_offer_status tid eid "expired" db).1).1).1
  else (increment_missed_tasks eid
      (update_task_offer_status tid eid "expired" db).1).1

theorem acceptance_timeout_core_eq (tid eid : Nat) (db : DB) :
    acceptance_timeout_core tid eid db =
      (update_task_fields tid (some "searching") (some none)
        (timeoutMid tid eid db)).1 := rfl

theorem timeoutMid_tasks (tid eid : Nat) (db : DB) :
    (timeoutMid tid eid db).tasks = db.tasks := by
  unfold timeoutMid
  split <;> rfl

theorem timeoutMid_offers (tid eid : Nat) (db : DB) :
    (timeoutMid tid eid db).offers =
      setOfferStatus (fun o => o.task_id == tid && o.executor_id == eid)
        "expired" db.offers := by
  unfold timeoutMid
  split <;> rfl

theorem timeoutMid_user (tid eid : Nat) (db : DB) (u : User)
    (hu : get_user eid db = some u) :
    get_user eid (timeoutMid tid eid db) =
      some { u with missed_tasks_count := u.missed_tasks_count + 1,
                    is_working := if 3 ≤ u.missed_tasks_count + 1 then some false
                                  else u.is_working } := by
  have hA : get_user eid (update_task_offer_status tid eid "expired" db).1 =
      some u := hu
  have h1 : get_user eid (increment_missed_tasks eid
      (update_task_offer_status tid eid "expired" db).1).1 =
      some { u with missed_tasks_count := u.missed_tasks_count + 1 } := by
    have := get_user_updateUserRow eid
      (fun v => { v with missed_tasks_count := v.missed_tasks_count + 1 })
      (update_task_offer_status tid eid "expired" db).1 (fun v => rfl)
    rw [hA] at this
    exact this
  have hcnt : (increment_missed_tasks eid
      (update_task_offer_status tid eid "expired" db).1).2 =
      u.missed_tasks_count + 1 := by
    have h1' : get_user eid (updateUserRow eid
        (fun v => { v with missed_tasks_count := v.missed_tasks_count + 1 })
        (update_task_offer_status tid eid "expired" db).1).1 =
        some { u with missed_tasks_count := u.missed_tasks_count + 1 } := h1
    unfold increment_missed_tasks
    simp only []
    rw [h1']
  unfold timeoutMid
  by_cases hc : 3 ≤ u.missed_tasks_count + 1
  · rw [if_pos (by rw [hcnt]; exact hc), if_pos hc]
    have h2 := get_user_updateUserRow eid
      (fun v => { v with is_working := some false })
      (increment_missed_tasks eid
        (update_task_offer_status tid eid "expired" db).1).1 (fun v => rfl)
    rw [h1] at h2
    exact h2
  · rw [if_neg (by rw [hcnt]; exact hc), if_neg hc]
    exact h1

/-- C7: the effects of the acceptance-timeout handler
(`TaskTimer._acceptance_timeout_handler`, its guard satisfied: the task
exists, is still `offered`, and is assigned to this executor): every offer
row of the (task, executor) pair becomes `expired`, the executor's
missed-tasks counter increments by exactly one, the task returns to
`searching`, `is_working` flips to false exactly when the new count
reached 3 (otherwise it is unchanged), and the follow-up candidate
selection (which passes `exclude_executor = eid`) excludes this executor
from the pool. -/
theorem c7_timeout_effects (tid eid : Nat) (db : DB) (task : Task) (u : User)
    (hget : get_task tid db = some task) (hst : task.status = "offered")
    (hex : task.executor_id = some eid) (hu : get_user eid db = some u) :
    (∀ o ∈ (acceptance_timeout_core tid eid db).offers,
      o.task_id = tid → o.executor_id = eid → o.status = "expired") ∧
    (get_user eid (acceptance_timeout_core tid eid db)).map
        (fun v => v.missed_tasks_count) = some (u.missed_tasks_count + 1) ∧
    (get_task tid (acceptance_timeout_core tid eid db)).map
        (fun t => t.status) = some "searching" ∧
    (3 ≤ u.missed_tasks_count + 1 →
      (get_user eid (acceptance_timeout_core tid eid db)).map
        (fun v => v.is_working) = some (some false)) ∧
    (u.missed_tasks_count + 1 < 3 →
      (get_user eid (acceptance_timeout_core tid eid db)).map
        (fun v => v.is_working) = some u.is_working) ∧
    (∀ c ∈ findPool task (some eid) (acceptance_timeout_core tid eid db),
      c.user.user_id ≠ eid) := by
  have husr : get_user eid (acceptance_timeout_core tid eid db) =
      get_user eid (timeoutMid tid eid db) := rfl
  have hmid := timeoutMid_user tid eid db u hu
  refine ⟨?_, ?_, ?_, ?_, ?_, ?_⟩
  · intro o' ho' h1 h2
    rw [acceptance_timeout_core_eq] at ho'
    have ho2 : o' ∈ (timeoutMid tid eid db).offers := ho'
    rw [timeoutMid_offers] at ho2
    rcases (mem_setOfferStatus _ _ _ o').1 ho2 with ⟨o, ho, rfl⟩
    by_cases hp : (o.task_id == tid && o.executor_id == eid) = true
    · simp [hp]
    · simp only [hp, Bool.false_eq_true, if_false] at h1 h2 ⊢
      rw [h1, h2] at hp
      simp at hp
  · rw [husr, hmid]
    rfl
  · rw [acceptance_timeout_core_eq, get_task_update_task_fields]
    have : get_task tid (timeoutMid tid eid db) = get_task tid db := by
      unfold get_task
      rw [timeoutMid_tasks]
    rw [this, hget]
    rfl
  · intro hc
    rw [husr, hmid, if_pos hc]
    rfl
  · intro hc
    rw [husr, hmid, if_neg (by omega : ¬ 3 ≤ u.missed_tasks_count + 1)]
    rfl
  · exact findPool_excludes_param task eid _

/-- Fixture: executor 100001 with two misses already on record. -/
def execA2 : User := { execA with missed_tasks_count := 2 }

/-- Fixture: initial state for the accept scenario. -/
def c3_s0 : DB := ⟨[execA2, execB, custC], [taskT], [], [], [], 0⟩

/-- One dispatch: the `pending` offer for executor 100001 is created and
the send raises (see `dispatchOffer`), so the task stays `searching` and
no timer is armed. -/
def c3_s1 : DB := (find_and_notify_executor 1 none 0 c3_s0).1

/-- Executor 100001 accepts the pending, unexpired offer. -/
def c3_s2 : DB := (respondToOffer 1 100001 true 0 c3_s1).1

theorem c3_reach : Steps c3_s0 c3_s2 :=
  Relation.ReflTransGen.head (Step.dispatch 1 0 c3_s0)
    (Relation.ReflTransGen.head
      (Step.respond 1 100001 true 0 c3_s1) Relation.ReflTransGen.refl)

/-- `find?` over a guarded one-key update: when the first row with the key
also satisfies the guard, the lookup returns the updated row. -/
theorem find?_map_key_and {α : Type} (key : α → Nat) (p : α → Bool)
    (tid : Nat) (f : α → α) (hid : ∀ a, key (f a) = key a) (l : List α)
    (a0 : α) (h : l.find? (fun a => key a == tid) = some a0)
    (hp : p a0 = true) :
    (l.map (fun a => if key a == tid && p a then f a else a)).find?
        (fun a => key a == tid) = some (f a0) := by
  have hfg : ∀ a ∈ l, (if key a == tid && p a then f a else a) =
      (fun a => if key a == tid then (if p a then f a else a) else a) a := by
    intro a _
    by_cases h1 : (key a == tid) = true
    · by_cases h2 : p a = true
      · simp [h1, h2]
      · simp [h1, h2]
    · have h1f : (key a == tid) = false := by
        cases hv : (key a == tid)
        · rfl
        · exact absurd hv h1
      simp [h1f]
  rw [List.map_congr_left hfg]
  have hid2 : ∀ a, key (if p a then f a else a) = key a := by
    intro a
    by_cases h2 : p a = true
    · simp [h2, hid]
    · simp [h2]
  rw [find?_map_key key tid (fun a => if p a then f a else a) hid2 l, h]
  simp [hp]

/-- C3: when an executor accepts a pending, unexpired offer (in the
source the task is still `searching` at that point — the failing send
never marks it `offered`), the offer is marked `accepted`, every tracked
acceptance timer of the task is removed, Task.status becomes
`in_progress` with this executor assigned, and the executor's
missed-tasks counter is reset to zero. -/
theorem c3_accept_sets_in_progress (tid eid pick : Nat) (db : DB)
    (task : Task) (u : User)
    (hget : get_task tid db = some task)
    (hst : task.status = "searching")
    (hoff : (get_task_offer tid eid db).isSome = true)
    (hu : get_user eid db = some u) :
    (respondToOffer tid eid true pick db).2 = true ∧
    get_task tid (respondToOffer tid eid true pick db).1 =
      some { task with status := "in_progress", executor_id := some eid } ∧
    hasStatusPair "accepted" tid eid (respondToOffer tid eid true pick db).1.offers ∧
    ¬ hasPendingPair tid eid (respondToOffer tid eid true pick db).1.offers ∧
    (get_user eid (respondToOffer tid eid true pick db).1).map
        (fun v => v.missed_tasks_count) = some 0 ∧
    (respondToOffer tid eid true pick db).1.timers =
      db.timers.filter (fun x => !(x.1 == tid && x.2.2.2)) := by
  obtain ⟨o, ho⟩ := Option.isSome_iff_exists.mp hoff
  have homem : o ∈ db.offers := List.mem_of_find?_eq_some ho
  have hoprop := List.find?_some ho
  have hopend : isPendingPair tid eid o = true := by
    simp only [Bool.and_eq_true] at hoprop
    exact hoprop.1
  obtain ⟨hoid1, hoid2, host⟩ := (isPendingPair_iff tid eid o).1 hopend
  have hany : db.offers.any (isPendingPair tid eid) = true :=
    List.any_eq_true.2 ⟨o, homem, hopend⟩
  have hr2 : (accept_task_offer tid eid db).2 = true := by
    unfold accept_task_offer
    rw [if_pos hany]
  have hacc1 : (accept_task_offer tid eid db).1 =
      { db with
        tasks := db.tasks.map (fun t =>
          if t.task_id == tid && t.status == "searching" then
            { t with executor_id := some eid, status := "in_progress" } else t),
        offers := setOfferStatus
          (fun o => o.task_id == tid && !(o.executor_id == eid) &&
            o.status == "pending")
          "cancelled" (setOfferStatus (isPendingPair tid eid) "accepted"
            db.offers) } := by
    unfold accept_task_offer
    rw [if_pos hany]
  have hshape : respondToOffer tid eid true pick db =
      ((reset_missed_tasks eid
        (update_task_offer_status tid eid "accepted"
          (cancelTimer tid (accept_task_offer tid eid db).1)).1).1, true) := by
    unfold respondToOffer
    split
    · rename_i heq
      rw [hget] at heq
      cases heq
    · rename_i task1 heq
      rw [hget] at heq
      injection heq with heq1
      subst heq1
      split
      · rename_i hcond
        rw [hst] at hcond
        simp at hcond
      · split
        · rename_i heq2
          rw [ho] at heq2
          cases heq2
        · rename_i o1 heq2
          rw [if_pos rfl]
          simp only []
          rw [hr2, if_pos rfl]
  rw [hshape, hacc1]
  refine ⟨rfl, ?_, ?_, ?_, ?_, rfl⟩
  · have hp : (task.status == "searching") = true := by rw [hst]; rfl
    exact find?_map_key_and Task.task_id (fun t => t.status == "searching")
      tid (fun t => { t with executor_id := some eid, status := "in_progress" })
      (fun t => rfl) db.tasks task hget hp
  · refine ⟨⟨o.task_id, o.executor_id, "accepted", o.expires_at⟩, ?_, hoid1, hoid2, rfl⟩
    have h1mem : ({ o with status := "accepted" } : Offer) ∈
        setOfferStatus (isPendingPair tid eid) "accepted" db.offers :=
      (mem_setOfferStatus _ _ _ _).2 ⟨o, homem, (if_pos hopend).symm⟩
    have hc2 : (({ o with status := "accepted" } : Offer).task_id == tid &&
        !(({ o with status := "accepted" } : Offer).executor_id == eid) &&
        (({ o with status := "accepted" } : Offer).status == "pending")) = false := by
      simp
    have h2mem : ({ o with status := "accepted" } : Offer) ∈
        setOfferStatus
          (fun o => o.task_id == tid && !(o.executor_id == eid) &&
            o.status == "pending")
          "cancelled" (setOfferStatus (isPendingPair tid eid) "accepted"
            db.offers) :=
      (mem_setOfferStatus _ _ _ _).2
        ⟨{ o with status := "accepted" }, h1mem,
          (if_neg (by rw [hc2]; exact Bool.false_ne_true)).symm⟩
    have hc3 : (({ o with status := "accepted" } : Offer).task_id == tid &&
        (({ o with status := "accepted" } : Offer).executor_id == eid)) = true := by
      simp [hoid1, hoid2]
    exact (mem_setOfferStatus _ _ _ _).2
      ⟨{ o with status := "accepted" }, h2mem, (if_pos hc3).symm⟩
  · rintro ⟨o1, hmem1, hx1, hx2, hx3⟩
    rcases (mem_setOfferStatus _ _ _ _).1 hmem1 with ⟨o0, ho0, heq⟩
    by_cases hp3 : (o0.task_id == tid && o0.executor_id == eid) = true
    · rw [if_pos hp3] at heq
      rw [heq] at hx3
      exact absurd (show ("accepted" : String) = "pending" from hx3) (by decide)
    · rw [if_neg hp3] at heq
      subst heq
      exact hp3 (by simp [hx1, hx2])
  · simp only [reset_missed_tasks]
    rw [get_user_updateUserRow eid (fun v => { v with missed_tasks_count := 0 })
      _ (fun v => rfl)]
    have husers : get_user eid
        (update_task_offer_status tid eid "accepted"
          (cancelTimer tid
            ({ db with
              tasks := db.tasks.map (fun t =>
                if t.task_id == tid && t.status == "searching" then
                  { t with executor_id := some eid, status := "in_progress" }
                else t),
              offers := setOfferStatus
                (fun o => o.task_id == tid && !(o.executor_id == eid) &&
                  o.status == "pending")
                "cancelled" (setOfferStatus (isPendingPair tid eid) "accepted"
                  db.offers) } : DB))).1 = get_user eid db := rfl
    rw [husers, hu]
    rfl

/-- Witness for C3 at the reachable post-dispatch state `c3_s1` (task 1
still `searching`, pending unexpired offer for executor 100001 with two
misses on record). -/
theorem c3_accept_sets_in_progress_witness :
    (respondToOffer 1 100001 true 0 c3_s1).2 = true ∧
    (get_task 1 c3_s2).map (fun t => (t.status, t.executor_id)) =
      some ("in_progress", some 100001) ∧
    hasStatusPair "accepted" 1 100001 c3_s2.offers ∧
    (get_user 100001 c3_s2).map (fun v => v.missed_tasks_count) = some 0 ∧
    c3_s2.timers = [] := by
  have h := c3_accept_sets_in_progress 1 100001 0 c3_s1 taskT execA2
    (by with_unfolding_all rfl) rfl (by with_unfolding_all rfl)
    (by with_unfolding_all rfl)
  refine ⟨h.1, ?_, h.2.2.1, h.2.2.2.2.1, ?_⟩
  · rw [show get_task 1 c3_s2 =
      some { taskT with status := "in_progress", executor_id := some 100001 }
      from h.2.1]
    rfl
  · rw [show c3_s2.timers = c3_s1.timers.filter (fun x => !(x.1 == 1 && x.2.2.2))
      from h.2.2.2.2.2]
    with_unfolding_all rfl

/-- Fixture: the normal post-offer state for the timeout scenario, written
out literally: the task is `offered` to executor 100001 (2 misses), a
pending offer and an armed timer exist. -/
def c7_db : DB :=
  ⟨[execA2, execB, custC],
   [⟨1, 100003, some 100001, "programming",
     ["python", "api", "react", "django"], 100, false, "offered"⟩],
   [⟨1, 100001, "pending", 1800⟩], [], [(1, 100001, 600, true)], 0⟩

/-- Witness for C7 at the concrete offered state `c7_db` (executor 100001
has 2 misses; the timeout is the third, so `is_working` flips off). -/
theorem c7_timeout_effects_witness :
    (get_user 100001 (acceptance_timeout_core 1 100001 c7_db)).map
        (fun v => v.missed_tasks_count) = some 3 ∧
    (get_task 1 (acceptance_timeout_core 1 100001 c7_db)).map
        (fun t => t.status) = some "searching" ∧
    (get_user 100001 (acceptance_timeout_core 1 100001 c7_db)).map
        (fun v => v.is_working) = some (some false) := by
  have h := c7_timeout_effects 1 100001 c7_db
    ⟨1, 100003, some 100001, "programming",
      ["python", "api", "react", "django"], 100, false, "offered"⟩
    execA2 (by decide) rfl rfl (by decide)
  exact ⟨h.2.1, h.2.2.1, h.2.2.2.1 (by decide)⟩

/-- The pending-offer filter of `get_available_executors`: an executor
holding ANY `pending` offer that has not yet expired on the clock is
dropped from the returned rows. -/
theorem get_available_excludes_pending (category : String) (tags : List String)
    (min_rating : ℚ) (db : DB) (e : Nat)
    (ho : ∃ o ∈ db.offers, o.executor_id = e ∧ o.status = "pending" ∧
      db.now < o.expires_at) :
    ∀ c ∈ get_available_executors category tags min_rating db,
      c.user.user_id ≠ e := by
  intro c hc heq
  obtain ⟨o, homem, hoe, host, hexp⟩ := ho
  unfold get_available_executors at hc
  rw [mem_stableSort] at hc
  rcases List.mem_filterMap.1 hc with ⟨u, hu, hfn⟩
  have hcu : c.user = u := by
    split at hfn
    · cases hfn
    · split at hfn
      · cases hfn
      · simp only [] at hfn
        split at hfn <;> split at hfn <;>
          first
            | (injection hfn with h1
               rw [← h1])
            | cases hfn
  have hrow := (List.mem_filter.1 hu).2
  simp only [Bool.and_eq_true] at hrow
  have hnp := hrow.2
  have hmem2 : e ∈ (db.offers.filter
      (fun o => o.status == "pending" && decide (db.now < o.expires_at))).map
        (fun o => o.executor_id) := by
    refine List.mem_map.2 ⟨o, ?_, hoe⟩
    refine List.mem_filter.2 ⟨homem, ?_⟩
    rw [host]
    simp [hexp]
  have hue : u.user_id = e := by rw [← hcu]; exact heq
  have hcont : ((db.offers.filter
      (fun o => o.status == "pending" && decide (db.now < o.expires_at))).map
        (fun x => x.executor_id)).contains e = true :=
    List.elem_iff.2 hmem2
  rw [hue, hcont] at hnp
  cases hnp

/-- Every candidate pool (for ANY task) excludes an executor with a
pending unexpired offer: the `pending`-offer filter sits in the base
query, not behind the `exclude` parameter. -/
theorem findPool_excludes_pending (db : DB) (task : Task) (excl : Option Nat)
    (e : Nat)
    (ho : ∃ o ∈ db.offers, o.executor_id = e ∧ o.status = "pending" ∧
      db.now < o.expires_at) :
    ∀ c ∈ findPool task excl db, c.user.user_id ≠ e := by
  intro c hc
  unfold findPool at hc
  have h4 := (List.mem_filter.1 hc).1
  have h3 := (List.mem_filter.1 h4).1
  have h2 := (List.mem_filter.1 h3).1
  have hbase : c ∈ get_available_executors task.category task.tags
      (if task.is_vip then VIP_EXECUTOR_MIN_RATING else 0) db := by
    cases excl with
    | none => exact h2
    | some x => exact (List.mem_filter.1 h2).1
  exact get_available_excludes_pending _ _ _ db e ho c hbase

/-- Fixture for the expiry/re-offer scenario: one executor (100001), one
customer (100003), one searching task, empty offer and timer tables. -/
def c10_s0 : DB := ⟨[execA, custC], [taskT], [], [], [], 0⟩

/-- After the first dispatch: a `pending` offer for 100001 expiring at
1800; the send raises (see `dispatchOffer`), the task stays `searching`
and no timer is armed. -/
def c10_s1 : DB := (find_and_notify_executor 1 none 0 c10_s0).1

/-- 1801 seconds later: the offer has expired on the clock. -/
def c10_s2 : DB := { c10_s1 with now := c10_s1.now + 1801 }

/-- The scheduler's periodic cleanup deletes the expired pending row. -/
def c10_s3 : DB := cleanup_expired_offers c10_s2

/-- A later scheduler dispatch re-selects executor 100001 for the same
task: a fresh `pending` offer expiring at 3601. -/
def c10_s4 : DB := (find_and_notify_executor 1 none 0 c10_s3).1

set_option maxRecDepth 3000 in
theorem c10_s1_offers : c10_s1.offers = [⟨1, 100001, "pending", 1800⟩] := by
  with_unfolding_all rfl

set_option maxRecDepth 3000 in
theorem c10_s1_timers : c10_s1.timers = [] := by
  with_unfolding_all rfl

set_option maxRecDepth 3000 in
theorem c10_s1_task : get_task 1 c10_s1 = some taskT := by
  with_unfolding_all rfl

set_option maxRecDepth 3000 in
theorem c10_s1_pool : findPool taskT none c10_s1 = [] := by
  with_unfolding_all rfl

set_option maxRecDepth 3000 in
theorem c10_s4_offers : c10_s4.offers = [⟨1, 100001, "pending", 3601⟩] := by
  with_unfolding_all rfl

theorem c10_reach : Steps c10_s0 c10_s4 := by
  have h1 : Steps c10_s0 c10_s1 :=
    Relation.ReflTransGen.single (Step.dispatch 1 0 c10_s0)
  have h2 : Steps c10_s1 c10_s2 :=
    Relation.ReflTransGen.single (Step.tick 1801 c10_s1)
  have h3 : Steps c10_s2 c10_s3 :=
    Relation.ReflTransGen.single (Step.cleanupStep c10_s2)
  have h4 : Steps c10_s3 c10_s4 :=
    Relation.ReflTransGen.single (Step.dispatch 1 0 c10_s3)
  exact ((h1.trans h2).trans h3).trans h4

/-- C10 counterexample: an executor whose offer was neither rejected nor
timed out is nonetheless excluded from the very next selection.  In the
reachable state `c10_s1` no timer was ever armed (the timer table is
empty, so no timeout can ever have occurred), every offer row is still
`pending`, executor 100001 never declined task 1 — and still the candidate
pool of a fresh selection for task 1 with NO `exclude` parameter does not
contain 100001: the pending-offer filter of `get_available_executors`
excludes the executor from EVERY selection until the offer expires, not
only from the selection immediately following a timeout. -/
theorem c10_counterexample :
    ReachableState c10_s1 ∧
    c10_s1.timers = [] ∧
    (∀ o ∈ c10_s1.offers, o.status = "pending") ∧
    hasPendingPair 1 100001 c10_s1.offers ∧
    get_task 1 c10_s1 = some taskT ∧
    ¬ (∃ c ∈ findPool taskT none c10_s1, c.user.user_id = 100001) := by
  refine ⟨⟨c10_s0, ⟨rfl, rfl⟩,
    Relation.ReflTransGen.single (Step.dispatch 1 0 c10_s0)⟩,
    c10_s1_timers, ?_, ?_, c10_s1_task, ?_⟩
  · intro o hmem
    rw [c10_s1_offers] at hmem
    rw [List.mem_singleton.1 hmem]
  · refine ⟨⟨1, 100001, "pending", 1800⟩, ?_, rfl, rfl, rfl⟩
    rw [c10_s1_offers]
    exact List.mem_singleton.2 rfl
  · rintro ⟨c, hc, hcid⟩
    rw [c10_s1_pool] at hc
    cases hc

/-- C10 (amended): an explicit decline is permanent, while an unanswered
offer blocks re-selection of that executor — for every task, not just the
one the offer belongs to — only until the row expires on the clock and the
scheduler cleanup deletes it.
(a) From any reachable state with a `rejected` row for a (task, executor)
pair, after any further steps the rejected row is still there, the pair is
never `pending` again, and the executor is excluded from every candidate
pool built for that task (the declined-executor filter).
(b) An executor with a pending unexpired offer is excluded from EVERY
candidate pool, whatever the task and the `exclude` argument (the
pending-offer filter of `get_available_executors`).
(c) After expiry plus cleanup the same executor is re-offered the same
task: in the reachable state `c10_s4` executor 100001, whose first offer
for task 1 expired and was deleted, holds a fresh `pending` offer for
task 1. -/
theorem c10_rejected_permanent_pending_blocks :
    (∀ s0 s s' : DB, InitDB s0 → Steps s0 s → Steps s s' →
      ∀ t e, hasRej t e s.offers →
        hasRej t e s'.offers ∧
        ¬ hasPendingPair t e s'.offers ∧
        (∀ task ∈ s'.tasks, task.task_id = t →
          ∀ excl, ∀ c ∈ findPool task excl s', c.user.user_id ≠ e)) ∧
    (∀ (db : DB) (task : Task) (excl : Option Nat) (e : Nat),
      (∃ o ∈ db.offers, o.executor_id = e ∧ o.status = "pending" ∧
        db.now < o.expires_at) →
      ∀ c ∈ findPool task excl db, c.user.user_id ≠ e) ∧
    (InitDB c10_s0 ∧ Steps c10_s0 c10_s4 ∧
      c10_s1.offers = [⟨1, 100001, "pending", 1800⟩] ∧
      c10_s4.offers = [⟨1, 100001, "pending", 3601⟩] ∧
      hasPendingPair 1 100001 c10_s4.offers) := by
  refine ⟨?_, ?_, ⟨rfl, rfl⟩, c10_reach, c10_s1_offers, c10_s4_offers, ?_⟩
  · intro s0 s s' h0 h01 h12 t e hr
    have hI : INV s := INV_reachable s0 s h0 h01
    have hr' : hasRej t e s'.offers := hasRej_persists_steps s s' hI h12 t e hr
    have hI' : INV s' := INV_steps s s' hI h12
    refine ⟨hr', fun hp => hI'.2.1 t e hp hr', ?_⟩
    intro task htask htid excl c hc
    exact findPool_excludes_rejected task excl s' e (by rw [htid]; exact hr') c hc
  · exact fun db task excl e ho => findPool_excludes_pending db task excl e ho
  · refine ⟨⟨1, 100001, "pending", 3601⟩, ?_, rfl, rfl, rfl⟩
    rw [c10_s4_offers]
    exact List.mem_singleton.2 rfl

/-- Fixture for the dispute-resolution scenarios: executor 11 (all balances
0), customer 12 (100 frozen for the task), task 1 in status `dispute`, one
open dispute row. -/
def c2_db : DB :=
  ⟨[⟨11, none, 0, 0, 0, 5, 0, some true, false, 0, none⟩,
    ⟨12, none, 0, 100, 0, 5, 0, none, false, 0, none⟩],
   [⟨1, 12, some 11, "programming", [], 100, false, "dispute"⟩],
   [], [⟨1, 1, 12, 11, "open", none, none⟩], [], 0⟩

/-- First resolution of dispute 1 in favour of the executor. -/
def c2_once : DB × Bool := resolve_dispute_handler 1 "executor" 99 c2_db

/-- Second resolution of the SAME dispute id on the resulting state. -/
def c2_twice : DB × Bool := resolve_dispute_handler 1 "executor" 99 c2_once.1

/-- C2: `resolve_dispute` carries no idempotency guard (its `UPDATE` has no
`AND status != 'resolved'` clause and `resolve_dispute_handler` never
checks `dispute.status`), so resolving the same dispute id twice is NOT
rejected: the second call also reports success and transfers the payout a
second time — the executor is paid 90 twice and the customer's frozen
balance is driven to −100. -/
theorem c2_resolve_dispute_not_idempotent :
    c2_once.2 = true ∧
    (get_dispute 1 c2_once.1).map (fun d => d.status) = some "resolved" ∧
    (get_user 11 c2_once.1).map (fun u => u.balance) = some 90 ∧
    (get_user 12 c2_once.1).map (fun u => u.frozen_balance) = some 0 ∧
    c2_twice.2 = true ∧
    (get_user 11 c2_twice.1).map (fun u => u.balance) = some 180 ∧
    (get_user 12 c2_twice.1).map (fun u => u.frozen_balance) = some (-100) := by
  refine ⟨?_, ?_, ?_, ?_, ?_, ?_, ?_⟩ <;> with_unfolding_all rfl

/-- Fixture for customer approval: executor 11, customer 12 with 100
frozen, task 1 (price 100, non-VIP) awaiting approval. -/
def c4_db : DB :=
  ⟨[⟨11, none, 0, 0, 0, 5, 0, some true, false, 0, none⟩,
    ⟨12, none, 0, 100, 0, 5, 0, none, false, 0, none⟩],
   [⟨1, 12, some 11, "programming", [], 100, false, "pending_approval"⟩],
   [], [], [], 0⟩

/-- The customer approves the pending-approval task. -/
def c4_r : DB × Bool := approve_task_completion 1 12 c4_db

/-- C4: customer approval of a `pending_approval` task credits
`price * (1 - PLATFORM_COMMISSION_RATE)` = 90 to the executor's available
balance, releases the customer's frozen 100 and completes the task, but it
does NOT touch the executor's `earned_balance` (which stays 0) — unlike the
favour-executor dispute path, and although `process_withdrawal` only allows
withdrawing up to `earned_balance`. -/
theorem c4_approval_skips_earned_balance :
    c4_r.2 = true ∧
    (get_user 11 c4_r.1).map (fun u => u.balance) = some 90 ∧
    (get_user 11 c4_r.1).map (fun u => u.earned_balance) = some 0 ∧
    (get_user 12 c4_r.1).map (fun u => u.frozen_balance) = some 0 ∧
    (get_task 1 c4_r.1).map (fun t => t.status) = some "completed" := by
  refine ⟨?_, ?_, ?_, ?_, ?_⟩ <;> with_unfolding_all rfl

/-- Executor fixture shared by the two C5 settlement paths. -/
def c5_exec : User := ⟨11, none, 0, 0, 0, 5, 0, some true, false, 0, none⟩

/-- Customer fixture with `p` frozen for the task. -/
def c5_cust (p : ℚ) : User := ⟨12, none, 0, p, 0, 5, 0, none, false, 0, none⟩

/-- Approval-path start state: task of price `p` awaiting approval. -/
def c5_approve_db (p : ℚ) : DB :=
  ⟨[c5_exec, c5_cust p],
   [⟨1, 12, some 11, "programming", [], p, false, "pending_approval"⟩], [], [], [], 0⟩

/-- Dispute-path start state: the same task disputed, one open dispute. -/
def c5_dispute_db (p : ℚ) : DB :=
  ⟨[c5_exec, c5_cust p],
   [⟨1, 12, some 11, "programming", [], p, false, "dispute"⟩], [],
   [⟨1, 1, 12, 11, "open", none, none⟩], [], 0⟩

/-- C5 counterexample: the two settlement paths do NOT produce identical
balance changes — starting from the same price-100 situation, normal
approval leaves the executor's `earned_balance` at 0 while the
favour-executor dispute resolution raises it to 90. -/
theorem c5_counterexample :
    ¬ ((get_user 11 (approve_task_completion 1 12 (c5_approve_db 100)).1).map
          (fun u => u.earned_balance) =
       (get_user 11 (resolve_dispute_handler 1 "executor" 99 (c5_dispute_db 100)).1).map
          (fun u => u.earned_balance)) := by
  with_unfolding_all decide

/-- C5 (amended): for every price `p` of a non-VIP task the two settlement
paths agree on the claim's observables — both succeed, both credit the
executor's available balance with `p * (1 - PLATFORM_COMMISSION_RATE)`
(at `p = 100`: 90), both release the customer's full frozen `p` (at
`p = 100`: frozen decreases by 100 to 0) and both complete the task — but
they deviate on `earned_balance`: 0 after approval versus
`p * (1 - PLATFORM_COMMISSION_RATE)` after the dispute resolution. -/
theorem c5_settlement_parallel (p : ℚ) :
    (approve_task_completion 1 12 (c5_approve_db p)).2 = true ∧
    (resolve_dispute_handler 1 "executor" 99 (c5_dispute_db p)).2 = true ∧
    (get_user 11 (approve_task_completion 1 12 (c5_approve_db p)).1).map
        (fun u => u.balance) = some (p * (1 - PLATFORM_COMMISSION_RATE)) ∧
    (get_user 11 (resolve_dispute_handler 1 "executor" 99 (c5_dispute_db p)).1).map
        (fun u => u.balance) = some (p * (1 - PLATFORM_COMMISSION_RATE)) ∧
    (get_user 12 (approve_task_completion 1 12 (c5_approve_db p)).1).map
        (fun u => u.frozen_balance) = some 0 ∧
    (get_user 12 (resolve_dispute_handler 1 "executor" 99 (c5_dispute_db p)).1).map
        (fun u => u.frozen_balance) = some 0 ∧
    (get_task 1 (approve_task_completion 1 12 (c5_approve_db p)).1).map
        (fun t => t.status) = some "completed" ∧
    (get_task 1 (resolve_dispute_handler 1 "executor" 99 (c5_dispute_db p)).1).map
        (fun t => t.status) = some "completed" ∧
    (get_user 11 (approve_task_completion 1 12 (c5_approve_db p)).1).map
        (fun u => u.earned_balance) = some 0 ∧
    (get_user 11 (resolve_dispute_handler 1 "executor" 99 (c5_dispute_db p)).1).map
        (fun u => u.earned_balance) = some (p * (1 - PLATFORM_COMMISSION_RATE)) := by
  refine ⟨?_, ?_, ?_, ?_, ?_, ?_, ?_, ?_, ?_, ?_⟩ <;>
    simp +decide [approve_task_completion, resolve_dispute_handler, c5_approve_db,
      c5_dispute_db, c5_exec, c5_cust, get_task, get_user, get_dispute,
      resolve_dispute, update_user_balance, updateUserRow, update_task_fields,
      get_vip_cost, PLATFORM_COMMISSION_RATE, List.find?] <;> try (left ; norm_num)

/-- Initial state for the negative-balance trace: a dispute already open
over task 1 (price 100), executor 11 with empty balances, customer 12 with
100 frozen; no offers and no timers, so `InitDB` holds. -/
def c6_s0 : DB :=
  ⟨[⟨11, none, 0, 0, 0, 5, 0, some true, false, 0, none⟩,
    ⟨12, none, 0, 100, 0, 5, 0, none, false, 0, none⟩],
   [⟨1, 12, some 11, "programming", [], 100, false, "dispute"⟩],
   [], [⟨1, 1, 12, 11, "open", none, none⟩], [], 0⟩

/-- The admin resolves the dispute in the executor's favour: executor 11
now has balance 90 and earned_balance 90. -/
def c6_s1 : DB := (resolve_dispute_handler 1 "executor" 99 c6_s0).1

/-- Executor 11 then spends 80 of the available 90 creating a task of
their own (price 80, non-VIP): balance 10, frozen 80, earned still 90. -/
def c6_s2 : DB := (create_task_final 11 "misc" [] 80 false 2 0 c6_s1).1

/-- Executor 11 withdraws 90: the guard checks `earned_balance` (90, so it
passes) but the deduction hits `balance` (10): balance becomes −80. -/
def c6_s3 : DB := (process_withdrawal 11 90 true c6_s2).1

theorem c6_fresh2 : c6_s1.tasks.all (fun t => !(t.task_id == 2)) = true := by
  with_unfolding_all rfl

theorem c6_reach : Steps c6_s0 c6_s3 := by
  have h1 : Steps c6_s0 c6_s1 :=
    Relation.ReflTransGen.single (Step.resolve 1 "executor" 99 c6_s0)
  have h2 : Steps c6_s1 c6_s2 :=
    Relation.ReflTransGen.single
      (Step.createTask 11 "misc" [] 80 false 2 0 c6_s1 c6_fresh2)
  have h3 : Steps c6_s2 c6_s3 :=
    Relation.ReflTransGen.single (Step.withdraw 11 90 true c6_s2)
  exact (h1.trans h2).trans h3

/-- C6: `available_balance ≥ 0` is NOT an invariant.  `process_withdrawal`
checks the requested amount against `earned_balance` but deducts it from
`balance`, so an executor who earned 90 through a dispute payout, spent 80
of it creating a task, and then withdraws the 90 the earned counter still
allows, ends at balance −80 in a reachable state (and the withdrawal is
reported successful). -/
theorem c6_negative_balance_reachable :
    ReachableState c6_s3 ∧
    (process_withdrawal 11 90 true c6_s2).2 = true ∧
    (get_user 11 c6_s3).map (fun u => u.balance) = some (-80) ∧
    ¬ (∀ u ∈ c6_s3.users, 0 ≤ u.balance) := by
  refine ⟨⟨c6_s0, ⟨rfl, rfl⟩, c6_reach⟩, ?_, ?_, ?_⟩
  · with_unfolding_all rfl
  · with_unfolding_all rfl
  · intro hall
    have hfind : c6_s3.users.find? (fun u => u.user_id == 11) =
        some ⟨11, none, -80, 80, 0, 5, 0, some true, false, 0, none⟩ := by
      with_unfolding_all rfl
    have hmem := List.mem_of_find?_eq_some hfind
    have hle := hall _ hmem
    norm_num at hle

/-- Helper: the customer row after `update_user_balance`. -/
theorem get_user_update_user_balance (uid : Nat) (b f : ℚ) (db : DB) :
    get_user uid (update_user_balance uid b f db).1 =
      (get_user uid db).map (fun u =>
        { u with balance := u.balance + b, frozen_balance := u.frozen_balance + f }) := by
  simp only [update_user_balance]
  exact get_user_updateUserRow _ _ _ (fun v => rfl)

/-- Fixture for the C8 counterexample: task 1 is `offered` to executor 11
(pending offer and armed timer present), owned by customer 12 with 100
frozen. -/
def c8_db : DB :=
  ⟨[⟨11, some "e", 0, 0, 0, 5, 0, some true, false, 0, none⟩,
    ⟨12, none, 0, 100, 0, 5, 0, none, false, 0, none⟩],
   [⟨1, 12, some 11, "misc", [], 100, false, "offered"⟩],
   [⟨1, 11, "pending", 1800⟩], [], [(1, 11, 600, true)], 0⟩

/-- C8 counterexample: the owner cancels their `offered` task — contrary to
the claim, `cancel_task` refuses (its guard is `status = 'searching'`
only): nothing is refunded, the status does not become `cancelled`, the
pending offer and the timer survive. -/
theorem c8_counterexample :
    ¬ ((cancel_task 1 12 c8_db).2 = true ∧
       (get_task 1 (cancel_task 1 12 c8_db).1).map (fun t => t.status) =
         some "cancelled" ∧
       (cancel_task 1 12 c8_db).1.offers.all
         (fun o => !(o.status == "pending")) = true ∧
       (cancel_task 1 12 c8_db).1.timers = []) := by
  intro h
  exact absurd h.1 (by with_unfolding_all decide)

/-- C8 (amended): cancellation works only from `searching` (an `offered`
task cannot be cancelled), the status written is the code's spelling
`canceled`, the full frozen amount — price plus the VIP surcharge when
applicable — moves back from the customer's frozen to available balance,
and NO offer row or timer is touched by the handler. -/
theorem c8_cancel_searching (tid uid : Nat) (db : DB) (task : Task)
    (hget : get_task tid db = some task)
    (hcust : task.customer_id = uid)
    (hst : task.status = "searching") :
    (cancel_task tid uid db).2 = true ∧
    (get_task tid (cancel_task tid uid db).1).map (fun t => t.status) =
      some "canceled" ∧
    (get_user uid (cancel_task tid uid db).1).map (fun u => u.balance) =
      (get_user uid db).map (fun u => u.balance +
        (task.price + if task.is_vip then get_vip_cost task.price else 0)) ∧
    (get_user uid (cancel_task tid uid db).1).map (fun u => u.frozen_balance) =
      (get_user uid db).map (fun u => u.frozen_balance -
        (task.price + if task.is_vip then get_vip_cost task.price else 0)) ∧
    (cancel_task tid uid db).1.offers = db.offers ∧
    (cancel_task tid uid db).1.timers = db.timers := by
  have hc : (task.customer_id == uid) = true := by simp [hcust]
  have hs : (task.status == "searching") = true := by rw [hst]; rfl
  unfold cancel_task
  rw [hget]
  simp only [hc, hs, Bool.not_true, Bool.false_eq_true, if_false, ite_false,
    Bool.not_eq_true']
  have h2 : get_user uid (update_task_fields tid (some "canceled") none db).1 =
      get_user uid db := rfl
  refine ⟨trivial, ?_, ?_, ?_, rfl, rfl⟩
  · have h1 : get_task tid
        ((update_user_balance uid
          (task.price + if task.is_vip then get_vip_cost task.price else 0)
          (-(task.price + if task.is_vip then get_vip_cost task.price else 0))
          (update_task_fields tid (some "canceled") none db).1).1) =
        get_task tid (update_task_fields tid (some "canceled") none db).1 := rfl
    rw [h1, get_task_update_task_fields, hget]
    rfl
  · rw [get_user_update_user_balance, h2]
    cases get_user uid db <;> simp
  · rw [get_user_update_user_balance, h2]
    cases get_user uid db <;> simp <;> ring

/-- Witness fixture: a still-`searching` VIP task of price 100 (surcharge
10, frozen 110) with a stale pending offer and timer lying around. -/
def c8w_db : DB :=
  ⟨[⟨11, some "e", 0, 0, 0, 5, 0, some true, false, 0, none⟩,
    ⟨12, none, 0, 110, 0, 5, 0, none, false, 0, none⟩,
    ⟨13, none, 0, 0, 0, 5, 0, none, false, 0, none⟩],
   [⟨1, 12, none, "misc", [], 100, true, "searching"⟩],
   [⟨1, 11, "pending", 1800⟩], [], [(1, 11, 600, true)], 0⟩

/-- Witness for C8 at `c8w_db`: cancellation succeeds, writes `canceled`,
refunds the full 110 = 100 + 10 and leaves the offer table untouched. -/
theorem c8_cancel_searching_witness :
    (cancel_task 1 12 c8w_db).2 = true ∧
    (get_task 1 (cancel_task 1 12 c8w_db).1).map (fun t => t.status) =
      some "canceled" ∧
    (get_user 12 (cancel_task 1 12 c8w_db).1).map (fun u => u.frozen_balance) =
      some 0 ∧
    (get_user 12 (cancel_task 1 12 c8w_db).1).map (fun u => u.balance) =
      some 110 ∧
    (cancel_task 1 12 c8w_db).1.offers = c8w_db.offers := by
  have h := c8_cancel_searching 1 12 c8w_db
    ⟨1, 12, none, "misc", [], 100, true, "searching"⟩ rfl rfl rfl
  refine ⟨h.1, h.2.1, ?_, ?_, h.2.2.2.2.1⟩
  · rw [h.2.2.2.1]; with_unfolding_all rfl
  · rw [h.2.2.1]; with_unfolding_all rfl

/-- A weak executor: full tag match for the fixture task but rating 1 and
no completed tasks, hence priority 0.4 against execA's 1.2. -/
def execW : User :=
  ⟨100005, some "w", 0, 0, 0, 1, 0, some true, false, 0,
   some [("programming", ["python", "api", "react", "django"])]⟩

/-- Selection fixture: both execA (priority 6/5) and execW (priority 2/5)
fully match the searching task 1. -/
def c9_db : DB := ⟨[execA, execW, custC], [taskT], [], [], [], 0⟩

/-- Soundness of the selection: every offer row added by
`find_and_notify_executor` goes to a member of the candidate pool. -/
theorem c9_sound (tid pick : Nat) (db : DB) (task : Task)
    (hget : get_task tid db = some task)
    (o : Offer) (ho : o ∈ (find_and_notify_executor tid none pick db).1.offers)
    (hnew : o ∉ db.offers) :
    ∃ c ∈ findPool task none db, c.user.user_id = o.executor_id := by
  unfold find_and_notify_executor at ho
  split at ho
  · exact absurd ho hnew
  · rename_i task' hget'
    rw [hget] at hget'
    injection hget' with htask
    subst htask
    split at ho
    · split at ho
      · exact absurd ho hnew
      · rename_i best rest hsorted
        split at ho
        · exact absurd ho hnew
        · rcases dispatchOffer_shape tid
              (((best :: rest).getD (pick % (best :: rest).length) best).user.user_id)
              db with heq | ⟨heq, hnp⟩
          · rw [heq] at ho; exact absurd ho hnew
          · rw [heq] at ho
            simp only [List.mem_append, List.mem_singleton] at ho
            rcases ho with h | h
            · exact absurd h hnew
            · have hmem : (best :: rest).getD (pick % (best :: rest).length) best
                  ∈ (best :: rest) :=
                mem_getD_of_lt _ _ _ (Nat.mod_lt _ (by simp))
              have hpool : (best :: rest).getD (pick % (best :: rest).length) best
                  ∈ findPool task none db := by
                rw [← mem_stableSort (offerSortLe task), hsorted]
                exact hmem
              exact ⟨_, hpool, by rw [h]⟩
    · exact absurd ho hnew

set_option maxRecDepth 3000 in
theorem c9_pick0_offers :
    (find_and_notify_executor 1 none 0 c9_db).1.offers =
      [⟨1, 100001, "pending", 1800⟩] := by
  with_unfolding_all rfl

set_option maxRecDepth 3000 in
theorem c9_pick1_offers :
    (find_and_notify_executor 1 none 1 c9_db).1.offers =
      [⟨1, 100005, "pending", 1800⟩] := by
  with_unfolding_all rfl

/-- C9 counterexample: the chosen executor's score is NOT always within a
fixed band of the top score — on `c9_db` (top priority 6/5) the selection
with `pick = 1` dispatches the offer to executor 100005 whose priority 2/5
is below even half of the top score; `random.choice` runs over the whole
sorted pool with no score-band filter. -/
theorem c9_counterexample :
    ¬ (∀ (pick : Nat) (o : Offer) (u : User),
        o ∈ (find_and_notify_executor 1 none pick c9_db).1.offers →
        get_user o.executor_id c9_db = some u →
        (1 / 2) * calculate_executor_priority execA taskT.tags taskT.category ≤
          calculate_executor_priority u taskT.tags taskT.category) := by
  intro h
  have hA : calculate_executor_priority execA taskT.tags taskT.category = 6 / 5 := by
    with_unfolding_all rfl
  have hW : calculate_executor_priority execW taskT.tags taskT.category = 2 / 5 := by
    with_unfolding_all rfl
  have hu : get_user (100005 : Nat) c9_db = some execW := by
    with_unfolding_all rfl
  have hm : (⟨1, 100005, "pending", 1800⟩ : Offer) ∈
      (find_and_notify_executor 1 none 1 c9_db).1.offers := by
    rw [c9_pick1_offers]; exact List.mem_singleton.mpr rfl
  have hle := h 1 ⟨1, 100005, "pending", 1800⟩ execW hm hu
  rw [hA, hW] at hle
  norm_num at hle

/-- C9 (amended): the selection draws (via the `pick` oracle modelling
`random.choice`) from the ENTIRE eligible pool with no score-band filter:
every dispatched offer goes to a member of `findPool` (soundness), and on
the fixture `c9_db` both the top-priority executor 100001 (priority 6/5,
`pick = 0`) and the bottom-priority executor 100005 (priority 2/5,
`pick = 1`) actually receive the offer. -/
theorem c9_selection_ranges_over_pool :
    (∀ (tid pick : Nat) (db : DB) (task : Task),
      get_task tid db = some task →
      ∀ o, o ∈ (find_and_notify_executor tid none pick db).1.offers →
        o ∉ db.offers →
        ∃ c ∈ findPool task none db, c.user.user_id = o.executor_id) ∧
    (find_and_notify_executor 1 none 0 c9_db).1.offers =
      [⟨1, 100001, "pending", 1800⟩] ∧
    (find_and_notify_executor 1 none 1 c9_db).1.offers =
      [⟨1, 100005, "pending", 1800⟩] ∧
    calculate_executor_priority execA taskT.tags taskT.category = 6 / 5 ∧
    calculate_executor_priority execW taskT.tags taskT.category = 2 / 5 ∧
    (2 / 5 : ℚ) < 6 / 5 := by
  refine ⟨?_, c9_pick0_offers, c9_pick1_offers, ?_, ?_, by norm_num⟩
  · intro tid pick db task hget o ho hnew
    exact c9_sound tid pick db task hget o ho hnew
  · with_unfolding_all rfl
  · with_unfolding_all rfl

end Rozdum
